import Mathlib

/-!
Verification of the batch-code decoding engine of DylanJ17/batchcode.

The repository holds two copies of the engine: `src/batch_code_reader.py`
(namespace `BCR` below) and `src/app_fixed.py` (namespace `AF` below).  The
date utilities (`julian_to_date`, `add_years`, `is_valid_expiry`,
`_resolve_two_digit_year`) and most decoders are byte-identical between the
two files; they are embedded once in the shared namespace.  Where the files
differ (the normalization regex, the empty-code message, the special-prefix
decoder, the pattern-4 relabelling, some message strings) both variants are
embedded.

Modelling conventions:
- Python `datetime` values are modelled by the `Date` structure (all
  datetimes built by the engine are at midnight, so the time component is
  irrelevant; datetime comparison, which is timeline order, is modelled by
  `Date.toOrdinal` comparison, and `toordinal` by `Date.toOrdinal` itself).
- `datetime.now()` is an implicit input of the engine; it is passed
  explicitly as a `now : Date` parameter (the spec treats "now" as an
  implicit input).
- Python exceptions used for control flow (`ValueError` on invalid calendar
  construction, the explicit `ValueError`s of `julian_to_date` and
  `_resolve_two_digit_year`) are modelled with `Option`/`Except` at the
  construction sites; each decoder handles them exactly where the source's
  `try`/`except` blocks sit.
- `is_valid_expiry` constructs `datetime(today.year+3, today.month,
  today.day)`; if that construction fails (today is Feb 29 and year+3 is not
  leap) the source raises a `ValueError` which every call site catches, with
  the same observable outcome as the check returning `False`.  It is
  therefore embedded as a total Boolean that is `false` when the bound is
  not constructible.
- Confidence values (0.98, 0.95, 0.9, 0.85, 0.8, 0.75, 0.70) are exactly
  representable floats compared only among themselves; they are embedded as
  natural-number percentages (98, 95, 90, 85, 80, 75, 70), which preserves
  all comparisons the source performs.
- Strings are modelled as `List Char`; `\d`, `str.isdigit` and `str.upper`
  are modelled on the ASCII fragment.
-/

namespace BatchCode

/-- A calendar date (the engine only ever builds midnight datetimes). -/
structure Date where
  y : Nat
  m : Nat
  d : Nat
deriving DecidableEq, Repr

/-- `calendar.isleap`: the standard Gregorian leap-year rule. -/
def isLeap (y : Nat) : Bool :=
  (y % 4 == 0 && y % 100 != 0) || y % 400 == 0

/-- Length of month `m` (1-12) given the leap flag of the year. -/
def monthLen (leap : Bool) (m : Nat) : Nat :=
  match m with
  | 1 => 31
  | 2 => if leap then 29 else 28
  | 3 => 31
  | 4 => 30
  | 5 => 31
  | 6 => 30
  | 7 => 31
  | 8 => 31
  | 9 => 30
  | 10 => 31
  | 11 => 30
  | 12 => 31
  | _ => 0

/-- Second component of `calendar.monthrange y m`: days in the month. -/
def daysInMonth (y m : Nat) : Nat := monthLen (isLeap y) m

/-- Days in the months strictly before month `m`. -/
def daysBeforeMonth (leap : Bool) (m : Nat) : Nat :=
  match m with
  | 1 => 0
  | 2 => 31
  | 3 => if leap then 60 else 59
  | 4 => if leap then 91 else 90
  | 5 => if leap then 121 else 120
  | 6 => if leap then 152 else 151
  | 7 => if leap then 182 else 181
  | 8 => if leap then 213 else 212
  | 9 => if leap then 244 else 243
  | 10 => if leap then 274 else 273
  | 11 => if leap then 305 else 304
  | 12 => if leap then 335 else 334
  | _ => 0

/-- Number of days in a year. -/
def daysInYear (y : Nat) : Nat := if isLeap y then 366 else 365

/-- Validity of a date, exactly the constructibility condition of Python's
`datetime(y, m, d)` (which requires `1 <= y <= 9999`). -/
def Date.valid (dt : Date) : Bool :=
  1 ≤ dt.y && dt.y ≤ 9999 && 1 ≤ dt.m && dt.m ≤ 12 && 1 ≤ dt.d && dt.d ≤ daysInMonth dt.y dt.m

/-- Days from year 1 up to the start of year `y` (proleptic Gregorian). -/
def yearOffset (y : Nat) : Nat :=
  365 * (y - 1) + (y - 1) / 4 + (y - 1) / 400 - (y - 1) / 100

/-- `datetime.toordinal`: day number with `0001-01-01` as day 1.  For valid
dates this is a strictly monotone image of the (y, m, d) lexicographic
order, so it also models datetime comparison. -/
def Date.toOrdinal (dt : Date) : Nat :=
  yearOffset dt.y + daysBeforeMonth (isLeap dt.y) dt.m + dt.d

/-- Day-of-year position of a date within its calendar year (1-based). -/
def dayOfYear (dt : Date) : Nat :=
  daysBeforeMonth (isLeap dt.y) dt.m + dt.d

/-- `datetime(y, m, d)`: `some` when constructible, `none` for the
`ValueError` case. -/
def mkDatetime (y m d : Nat) : Option Date :=
  if (Date.mk y m d).valid then some ⟨y, m, d⟩ else none

/-- Month in which day-of-year `ddd` falls, given the leap flag. -/
def monthOfYearDay (leap : Bool) (ddd : Nat) : Nat :=
  if ddd ≤ daysBeforeMonth leap 2 then 1
  else if ddd ≤ daysBeforeMonth leap 3 then 2
  else if ddd ≤ daysBeforeMonth leap 4 then 3
  else if ddd ≤ daysBeforeMonth leap 5 then 4
  else if ddd ≤ daysBeforeMonth leap 6 then 5
  else if ddd ≤ daysBeforeMonth leap 7 then 6
  else if ddd ≤ daysBeforeMonth leap 8 then 7
  else if ddd ≤ daysBeforeMonth leap 9 then 8
  else if ddd ≤ daysBeforeMonth leap 10 then 9
  else if ddd ≤ daysBeforeMonth leap 11 then 10
  else if ddd ≤ daysBeforeMonth leap 12 then 11
  else 12

/-- The date in year `y` at day-of-year position `ddd`, i.e. the result of
`datetime(y, 1, 1) + timedelta(days = ddd - 1)` when `ddd` lies within the
year (timedelta addition moves along the timeline, and the result stays in
year `y`). -/
def dateOfYearDay (y ddd : Nat) : Date :=
  let mo := monthOfYearDay (isLeap y) ddd
  ⟨y, mo, ddd - daysBeforeMonth (isLeap y) mo⟩

/-- Error kinds for the date utilities (`ValueError` carriers). -/
inductive DateErr where
  | invalidDayOfYear
  | invalidDate
deriving DecidableEq, Repr

/-- `BatchCodeValidator.julian_to_date`: validates
`1 <= day_of_year <= (366 if leap else 365)` (raising the explicit
invalid-day `ValueError` otherwise), then computes
`datetime(year, 1, 1) + timedelta(days = day_of_year - 1)`
(whose `datetime(year, 1, 1)` construction raises for years outside
`[1, 9999]`). -/
def julian_to_date (year day_of_year : Nat) : Except DateErr Date :=
  if ¬(1 ≤ day_of_year ∧ day_of_year ≤ daysInYear year) then
    .error .invalidDayOfYear
  else if ¬(1 ≤ year ∧ year ≤ 9999) then
    .error .invalidDate
  else
    .ok (dateOfYearDay year day_of_year)

/-- `BatchCodeValidator.add_years`: `date.replace(year = date.year + years)`,
collapsing Feb 29 to Feb 28 of the target year when the direct replacement
is not constructible; the fallback `replace` itself raises when the target
year is outside `[1, 9999]`, and that error propagates. -/
def add_years (date : Date) (years : Int) : Except DateErr Date :=
  let ty : Int := (date.y : Int) + years
  if 0 ≤ ty ∧ (Date.mk ty.toNat date.m date.d).valid then
    .ok ⟨ty.toNat, date.m, date.d⟩
  else if date.m = 2 ∧ date.d = 29 then
    if 0 ≤ ty ∧ (Date.mk ty.toNat 2 28).valid then
      .ok ⟨ty.toNat, 2, 28⟩
    else .error .invalidDate
  else .error .invalidDate

/-- `BatchCodeValidator.is_valid_expiry`: the expiry must lie in
`[2015-01-01, datetime(today.year + 3, today.month, today.day)]`.  When the
upper bound is not constructible the source raises a `ValueError` that every
call site catches with the same outcome as `false` (see the header note). -/
def is_valid_expiry (now expiry_date : Date) : Bool :=
  (Date.mk (now.y + 3) now.m now.d).valid
    && (Date.mk 2015 1 1).toOrdinal ≤ expiry_date.toOrdinal
    && expiry_date.toOrdinal ≤ (Date.mk (now.y + 3) now.m now.d).toOrdinal

/-- `BatchCodeValidator._resolve_two_digit_year`: `yy` must be in `[0, 99]`
(explicit `ValueError` otherwise); years below 50 resolve into the current
century, the rest into the previous one.  (For `now.y < 100` the Python
value would be negative where the `Nat` subtraction truncates; every call
site immediately rejects both with its `2015 <= year` check.) -/
def resolve_two_digit_year (now : Date) (yy : Nat) : Except DateErr Nat :=
  if yy ≤ 99 then
    let century := (now.y / 100) * 100
    .ok (if yy < 50 then century + yy else century - 100 + yy)
  else .error .invalidDate

/-! ### List helpers

Python's `sorted` is a stable sort; `sorted(..., reverse=True)` is the
stable descending sort (equal keys keep their input order).  Insertion sort
with non-strict comparison against already-placed elements is stable, and a
stable sorted permutation is unique, so these model `sorted` exactly. -/

/-- Stable insertion into an ascending-by-key list. -/
def insertAsc (k : α → Nat) (x : α) : List α → List α
  | [] => [x]
  | y :: ys => if k x ≤ k y then x :: y :: ys else y :: insertAsc k x ys

/-- Stable ascending sort by a `Nat` key: models `sorted(l, key=k)`. -/
def sortAsc (k : α → Nat) : List α → List α
  | [] => []
  | x :: xs => insertAsc k x (sortAsc k xs)

/-- Stable insertion into a descending-by-key list. -/
def insertDesc (k : α → Nat) (x : α) : List α → List α
  | [] => [x]
  | y :: ys => if k y ≤ k x then x :: y :: ys else y :: insertDesc k x ys

/-- Stable descending sort: models `sorted(l, key=k, reverse=True)`. -/
def sortDesc (k : α → Nat) : List α → List α
  | [] => []
  | x :: xs => insertDesc k x (sortDesc k xs)

/-- First-occurrence deduplication by key with an accumulated `seen` set:
models the `for x in l: if k(x) not in seen: keep; seen.add(k(x))` idiom. -/
def dedupByAux (k : α → β) [DecidableEq β] (seen : List β) : List α → List α
  | [] => []
  | x :: xs =>
    if k x ∈ seen then dedupByAux k seen xs
    else x :: dedupByAux k (k x :: seen) xs

/-- First-occurrence deduplication by key. -/
def dedupBy (k : α → β) [DecidableEq β] (l : List α) : List α :=
  dedupByAux k [] l

/-! ### Characters and numerals (ASCII fragment) -/

/-- `\d` / `str.isdigit` on the ASCII fragment. -/
def isDigitChar (c : Char) : Bool := '0' ≤ c && c ≤ '9'

/-- `[A-Z]`. -/
def isUpperAlpha (c : Char) : Bool := 'A' ≤ c && c ≤ 'Z'

/-- `[A-Z0-9]`. -/
def isAlnumUpper (c : Char) : Bool := isUpperAlpha c || isDigitChar c

/-- Python whitespace class `\s` = `[ \t\n\r\v\f]`. -/
def pySpace (c : Char) : Bool :=
  c = ' ' || c = '\t' || c = '\n' || c = '\r' || c = '\x0b' || c = '\x0c'

/-- `str.strip()`: drop whitespace from both ends. -/
def pyStrip (cs : List Char) : List Char :=
  ((cs.dropWhile pySpace).reverse.dropWhile pySpace).reverse

/-- `str.upper()` on the ASCII fragment. -/
def upperChar (c : Char) : Char :=
  if 'a' ≤ c && c ≤ 'z' then Char.ofNat (c.toNat - 32) else c

/-- `int(s)` for a string of decimal digits. -/
def natOfDigits (cs : List Char) : Nat :=
  cs.foldl (fun a c => a * 10 + (c.toNat - 48)) 0

/-! ### The interpretation record

The source builds interpretations as dicts whose optional keys (`suffix`,
`batch`, `prefix`, `julian_day`, `alpha_suffix`, and the orchestrator's
`format_name_source` / `parsing_message` tags) are present only on some
paths; they are embedded as `Option` fields (`none` = key absent).  The
source's `prefix` key is named `pfx` here. -/

structure Interp where
  production_date : Date
  expiry_date : Date
  confidence : Nat
  format_type : String
  suffix : Option String := none
  batch : Option String := none
  pfx : Option String := none
  julian_day : Option Nat := none
  alpha_suffix : Option String := none
  format_name_source : Option String := none
  parsing_message : Option String := none
deriving DecidableEq, Repr

/-! ### Pattern grammars

Each `match...` function below is the leftmost-greedy (Python `re.match`,
implicitly anchored at the start, explicitly at the end by `$`) match of one
registry pattern, with backtracking resolved by hand; the group split is a
function of the cleaned code's length and character classes. -/

/-- `^(\d)(\d{3})(\d{2})$` (`yddd_bb`): six digits split 1/3/2. -/
def matchYdddBb (code : List Char) : Option (List Char × List Char × List Char) :=
  if code.length = 6 ∧ code.all isDigitChar then
    some (code.take 1, (code.drop 1).take 3, code.drop 4)
  else none

/-- `^(\d{1,2})(\d{1,2})(\d{2})(\d{1,3})$` (`ddmmyyyy_variants`): an
all-digit string of length 5-8.  Greedy backtracking maximises group 1,
then group 2, then group 4 (group 3 is fixed at two), giving splits
1/1/2/1, 2/1/2/1, 2/2/2/1 and 2/2/2/2 for lengths 5, 6, 7 and 8. -/
def matchDdmmyyyy (code : List Char) :
    Option (List Char × List Char × List Char × List Char) :=
  if code.all isDigitChar then
    match code.length with
    | 5 => some (code.take 1, (code.drop 1).take 1, (code.drop 2).take 2, code.drop 4)
    | 6 => some (code.take 2, (code.drop 2).take 1, (code.drop 3).take 2, code.drop 5)
    | 7 => some (code.take 2, (code.drop 2).take 2, (code.drop 4).take 2, code.drop 6)
    | 8 => some (code.take 2, (code.drop 2).take 2, (code.drop 4).take 2, code.drop 6)
    | _ => none
  else none

/-- `^(\d{2})(\d{2})(\d{2})$` (`ddmmyy_variants`): six digits split 2/2/2. -/
def matchDdmmyy (code : List Char) : Option (List Char × List Char × List Char) :=
  if code.length = 6 ∧ code.all isDigitChar then
    some (code.take 2, (code.drop 2).take 2, code.drop 4)
  else none

/-- `^(\d{3})(\d{2})(\d{1,3})$` (`julian_with_suffix`): an all-digit string
of length 6-8, split 3/2/(length-5). -/
def matchJulianSuffix (code : List Char) : Option (List Char × List Char × List Char) :=
  if code.all isDigitChar ∧ 6 ≤ code.length ∧ code.length ≤ 8 then
    some (code.take 3, (code.drop 3).take 2, code.drop 5)
  else none

/-- `^(\d{3,5})(\d{2})([A-Z]+)$` (`mixed_alpha`): a digit run of length
`k ∈ [5,7]` followed by a nonempty letter run.  Group 2 is pinned to the
last two digits of the run (`[A-Z]+` cannot absorb digits), so greedy
matching forces group 1 = the first `k - 2` digits. -/
def matchMixedAlpha (code : List Char) : Option (List Char × List Char × List Char) :=
  let k := (code.takeWhile isDigitChar).length
  let tail := code.drop k
  if 5 ≤ k ∧ k ≤ 7 ∧ tail ≠ [] ∧ tail.all isUpperAlpha then
    some (code.take (k - 2), (code.drop (k - 2)).take 2, tail)
  else none

/-- `^([A-Z])(\d{2})(\d{2})([A-Z0-9]+)$` (`prefix_yymm_suffix`): a letter,
four digits, then a nonempty uppercase-alphanumeric run. -/
def matchPrefixYymm (code : List Char) :
    Option (Char × List Char × List Char × List Char) :=
  match code with
  | [] => none
  | c :: rest =>
    if isUpperAlpha c ∧ 5 ≤ rest.length ∧ (rest.take 4).all isDigitChar
        ∧ (rest.drop 4).all isAlnumUpper then
      some (c, rest.take 2, (rest.drop 2).take 2, rest.drop 4)
    else none

/-- `^([A-Z])(\d{2,4})([A-Z0-9]+)$` (`special_prefix`): let `k` be the
length of the digit run after the letter.  The greedy group 2 takes
`min 4 k` digits, except when that would leave group 3 empty (the string is
exactly the letter plus `k ≤ 4` digits), in which case it backtracks one
digit; group 3 is everything after group 2 and may itself contain the
remaining digits, but every character after the letter must be in
`[A-Z0-9]`. -/
def matchSpecialPfx (code : List Char) : Option (Char × List Char × List Char) :=
  match code with
  | [] => none
  | c :: rest =>
    let k := (rest.takeWhile isDigitChar).length
    let m4 := min 4 k
    let g2len := if rest.length = m4 then m4 - 1 else m4
    if isUpperAlpha c ∧ 2 ≤ g2len ∧ rest.drop g2len ≠ []
        ∧ (rest.drop k).all isAlnumUpper then
      some (c, rest.take g2len, rest.drop g2len)
    else none

/-- `{n:02d}`. -/
def pad2 (n : Nat) : String := if n < 10 then "0" ++ toString n else toString n

/-- `_process_parsed_dates` (identical in both files; the `code_part_for_msg`
argument is only logged and is dropped here).  For each candidate the expiry
is `add_years(prod, 3)` — whose failure propagates out of the decoder — and
the candidate is kept only when `is_valid_expiry` accepts the expiry; the
`suffix` key is added only when the suffix string is nonempty. -/
def process_parsed_dates (now : Date) (suffix : String) (base_confidence : Nat)
    (format_desc : String) : List Date → Except DateErr (List Interp)
  | [] => .ok []
  | prod_date :: rest =>
    match add_years prod_date 3 with
    | .error e => .error e
    | .ok expiry_date =>
      match process_parsed_dates now suffix base_confidence format_desc rest with
      | .error e => .error e
      | .ok tail =>
        if is_valid_expiry now expiry_date then
          .ok ({ production_date := prod_date, expiry_date := expiry_date,
                 confidence := base_confidence,
                 format_type := if format_desc = "" then "Parsed Date" else format_desc,
                 suffix := if suffix = "" then none else some suffix } :: tail)
        else .ok tail

/-- The orchestrator's per-validator collection step (identical in both
files): when a validator reports a match with a nonempty list, every
interpretation is tagged with the validator's name and message and
appended. -/
def tagged (f_name : String) (r : Bool × String × List Interp) : List Interp :=
  if r.1 ∧ r.2.2 ≠ [] then
    r.2.2.map (fun i => { i with format_name_source := some f_name,
                                 parsing_message := some r.2.1 })
  else []

/-- The orchestrator's deduplication key tuple (identical in both files). -/
def dedupKey (i : Interp) : Nat × Nat × String × String × String × String :=
  (i.production_date.toOrdinal, i.expiry_date.toOrdinal, i.format_type,
   i.suffix.getD "", i.batch.getD "", i.pfx.getD "")

/-- The DD/MM and MM/DD readings of `parse_date_variants` for one candidate
year (the first part of the loop body, identical in both files): the DD/MM
candidate is appended when constructible and at most `maxOrd`; the MM/DD
candidate additionally only when not already present. -/
def dateReadingsStep12 (maxOrd part1 part2 : Nat) (cands : List Date) (year_val : Nat) :
    List Date :=
  let c1 :=
    if 1 ≤ part1 ∧ part1 ≤ 31 ∧ 1 ≤ part2 ∧ part2 ≤ 12 then
      match mkDatetime year_val part2 part1 with
      | some dt => if dt.toOrdinal ≤ maxOrd then cands ++ [dt] else cands
      | none => cands
    else cands
  if 1 ≤ part1 ∧ part1 ≤ 12 ∧ 1 ≤ part2 ∧ part2 ≤ 31 then
    match mkDatetime year_val part1 part2 with
    | some dt => if dt ∉ c1 ∧ dt.toOrdinal ≤ maxOrd then c1 ++ [dt] else c1
    | none => c1
  else c1

/-- The MM/YY-as-month-end reading of `parse_date_variants` for one
candidate year (the `1 <= part1 <= 12` guard sits at its call sites, as in
the sources). -/
def dateReadingsStep3 (maxOrd part1 : Nat) (cands : List Date) (year_val_my : Nat) :
    List Date :=
  match mkDatetime year_val_my part1 (daysInMonth year_val_my part1) with
  | some dt => if dt ∉ cands ∧ dt.toOrdinal ≤ maxOrd then cands ++ [dt] else cands
  | none => cands

/-- The single-digit decade heuristic of `validate_yddd_bb` (identical in
both files): the candidate year in the current decade ending in `y_digit`,
stepped back one decade when it exceeds the current year. -/
def decade_heuristic_year (current_year y_digit : Nat) : Nat :=
  let year_candidate_1 := (current_year / 10) * 10 + y_digit
  if year_candidate_1 > current_year then year_candidate_1 - 10 else year_candidate_1

/-- The whole per-year loop body of `batch_code_reader.py`'s
`parse_date_variants` (which runs all three readings inside the single
loop). -/
def dateReadingsStep (maxOrd part1 part2 : Nat) (cands : List Date) (year_val : Nat) :
    List Date :=
  let c2 := dateReadingsStep12 maxOrd part1 part2 cands year_val
  if 1 ≤ part1 ∧ part1 ≤ 12 then dateReadingsStep3 maxOrd part1 c2 year_val else c2

namespace BCR

/-- `parse_date_variants` of `src/batch_code_reader.py` (lines 377-430).
Year candidates `1900+yy` (only when `yy > current_year % 100 + 5`) and
`2000+yy` are filtered to `[2015, current_year+1]`; the `0 <= yy` lower
bound and the `year_1900s == year_2000s` collapse of the source are
vacuous for `Nat` arguments.  Per surviving year the DD/MM, MM/DD and
MM/YY-month-end readings are attempted, each kept when constructible,
not already present, and at most 90 days after `now`; the result is the
sorted, deduplicated candidate list. -/
def parse_date_variants (now : Date) (part1 part2 yy : Nat) : List Date :=
  let current_year := now.y
  let resolved_years_to_try : List Nat :=
    if yy ≤ 99 then
      (if yy > current_year % 100 + 5 then [1900 + yy] else []) ++ [2000 + yy]
    else [yy]
  let valid_prod_years :=
    resolved_years_to_try.filter (fun yv => 2015 ≤ yv && yv ≤ current_year + 1)
  let maxOrd := now.toOrdinal + 90
  let candidates := valid_prod_years.foldl (dateReadingsStep maxOrd part1 part2) []
  dedupBy (fun d => d) (sortAsc Date.toOrdinal candidates)

/-- `validate_yddd_bb` (identical in both files up to message text, which
follows `batch_code_reader.py`). -/
def validate_yddd_bb (now : Date) (code : List Char) : Bool × String × List Interp :=
  match matchYdddBb code with
  | none => (false, "Not YDDD BB pattern", [])
  | some (y_str, ddd_str, bb_str) =>
    let y_digit := natOfDigits y_str
    let ddd := natOfDigits ddd_str
    let current_year := now.y
    let year := decade_heuristic_year current_year y_digit
    if ¬(2015 ≤ year ∧ year ≤ current_year + 1) then
      (false, "Resolved year " ++ toString year ++ " is out of valid range", [])
    else
      match julian_to_date year ddd with
      | .error _ => (false, "Invalid data for YDDD BB pattern", [])
      | .ok prod_date =>
        match add_years prod_date 3 with
        | .error _ => (false, "Invalid data for YDDD BB pattern", [])
        | .ok expiry_date =>
          if is_valid_expiry now expiry_date then
            (true,
             "YDDD BB (Year: " ++ toString year ++ ", Julian: " ++ toString ddd
               ++ ", Batch: " ++ String.mk bb_str ++ ")",
             [{ production_date := prod_date, expiry_date := expiry_date,
                julian_day := some ddd, batch := some (String.mk bb_str),
                confidence := 98, format_type := "YDDD BB" }])
          else (false, "Invalid data for YDDD BB pattern", [])

/-- `validate_historical_pattern_1` (ddmmyyyy variants) of
`batch_code_reader.py`: resolver candidates processed at confidence 0.9,
then the format label rewritten per candidate by comparing the decoded
day/month against the two fields. -/
def validate_historical_pattern_1 (now : Date) (code : List Char) : Bool × String × List Interp :=
  match matchDdmmyyyy code with
  | none => (false, "Not historical pattern 1", [])
  | some (day_str, month_str, yy_str, suffix_str) =>
    let day := natOfDigits day_str
    let month := natOfDigits month_str
    let yy := natOfDigits yy_str
    let candidates := parse_date_variants now day month yy
    match process_parsed_dates now (String.mk suffix_str) 90 "DD/MM/YY or MM/DD/YY" candidates with
    | .error _ => (false, "Invalid data historical pattern 1", [])
    | .ok results =>
      if results ≠ [] then
        let results := results.map (fun r =>
          if r.production_date.d = day ∧ r.production_date.m = month then
            { r with format_type := "DD/MM/YY + suffix" }
          else if r.production_date.m = day ∧ r.production_date.d = month then
            { r with format_type := "MM/DD/YY + suffix" }
          else { r with format_type := "Parsed Date (MM/YY?) + suffix" })
        (true, "Historical Pattern 1 - Suffix: " ++ String.mk suffix_str, results)
      else (false, "Invalid data historical pattern 1", [])

/-- `validate_historical_pattern_2` (ddmmyy or mmddyy) of
`batch_code_reader.py`: like pattern 1 at confidence 0.85 without suffix. -/
def validate_historical_pattern_2 (now : Date) (code : List Char) : Bool × String × List Interp :=
  match matchDdmmyy code with
  | none => (false, "Not historical pattern 2", [])
  | some (p1_str, p2_str, yy_str) =>
    let part1 := natOfDigits p1_str
    let part2 := natOfDigits p2_str
    let yy := natOfDigits yy_str
    let candidates := parse_date_variants now part1 part2 yy
    match process_parsed_dates now "" 85 "DD/MM/YY or MM/DD/YY" candidates with
    | .error _ => (false, "Invalid data historical pattern 2", [])
    | .ok results =>
      if results ≠ [] then
        let results := results.map (fun r =>
          if r.production_date.d = part1 ∧ r.production_date.m = part2 then
            { r with format_type := "DD/MM/YY" }
          else if r.production_date.m = part1 ∧ r.production_date.d = part2 then
            { r with format_type := "MM/DD/YY" }
          else { r with format_type := "MM/YY (End of Month)" })
        (true, "Historical Pattern 2", results)
      else (false, "Invalid data historical pattern 2", [])

/-- `validate_historical_pattern_3` (Julian day + year + suffix), identical
in both files up to message text. -/
def validate_historical_pattern_3 (now : Date) (code : List Char) : Bool × String × List Interp :=
  match matchJulianSuffix code with
  | none => (false, "Not historical pattern 3", [])
  | some (ddd_str, yy_str, suffix_str) =>
    let ddd := natOfDigits ddd_str
    let yy := natOfDigits yy_str
    match resolve_two_digit_year now yy with
    | .error _ => (false, "Invalid data historical pattern 3", [])
    | .ok year =>
      if ¬(2015 ≤ year ∧ year ≤ now.y + 1) then
        (false, "Year " ++ toString year ++ " out of range", [])
      else match julian_to_date year ddd with
      | .error _ => (false, "Invalid data historical pattern 3", [])
      | .ok prod_date =>
        match add_years prod_date 3 with
        | .error _ => (false, "Invalid data historical pattern 3", [])
        | .ok expiry_date =>
          if is_valid_expiry now expiry_date then
            (true,
             "Historical Pattern 3 (Julian " ++ toString ddd ++ "/" ++ toString year
               ++ " + suffix: " ++ String.mk suffix_str ++ ")",
             [{ production_date := prod_date, expiry_date := expiry_date,
                julian_day := some ddd, suffix := some (String.mk suffix_str),
                confidence := 95, format_type := "Julian DDDYY + Suffix" }])
          else (false, "Invalid data historical pattern 3", [])

/-- `validate_historical_pattern_4` (date digits + alphabetic suffix) of
`batch_code_reader.py`.  A 3-digit date part takes the Julian route at
confidence 0.9; a 4-digit one delegates to the resolver at 0.85 (failures
inside either branch leave `final_results` empty, with the same
invalid-data outcome as the source's caught exceptions); a 5-digit part is
logged as unhandled and produces nothing. -/
def validate_historical_pattern_4 (now : Date) (code : List Char) : Bool × String × List Interp :=
  match matchMixedAlpha code with
  | none => (false, "Not historical pattern 4", [])
  | some (date_part_str, yy_str, alpha_suffix) =>
    let yy := natOfDigits yy_str
    if date_part_str.length = 3 then
      let ddd := natOfDigits date_part_str
      let final_results : List Interp :=
        match resolve_two_digit_year now yy with
        | .error _ => []
        | .ok year_resolved =>
          if 2015 ≤ year_resolved ∧ year_resolved ≤ now.y + 1 then
            match julian_to_date year_resolved ddd with
            | .error _ => []
            | .ok prod_date =>
              match add_years prod_date 3 with
              | .error _ => []
              | .ok expiry_date =>
                if is_valid_expiry now expiry_date then
                  [{ production_date := prod_date, expiry_date := expiry_date,
                     julian_day := some ddd,
                     alpha_suffix := some (String.mk alpha_suffix),
                     confidence := 90, format_type := "Julian DDDYY + Alpha Suffix" }]
                else []
          else []
      if final_results ≠ [] then
        (true, "Historical Pattern 4 - Alpha Suffix: " ++ String.mk alpha_suffix, final_results)
      else (false, "Invalid data historical pattern 4", [])
    else if date_part_str.length = 4 then
      let p1 := natOfDigits (date_part_str.take 2)
      let p2 := natOfDigits (date_part_str.drop 2)
      let candidates := parse_date_variants now p1 p2 yy
      match process_parsed_dates now (String.mk alpha_suffix) 85 "DDMMYY/MMDDYY + Alpha" candidates with
      | .error _ => (false, "Invalid data historical pattern 4", [])
      | .ok processed =>
        let final_results := processed.map
          (fun r => { r with alpha_suffix := some (String.mk alpha_suffix) })
        if final_results ≠ [] then
          (true, "Historical Pattern 4 - Alpha Suffix: " ++ String.mk alpha_suffix, final_results)
        else (false, "Invalid data historical pattern 4", [])
    else (false, "Invalid data historical pattern 4", [])

/-- `validate_prefix_yymm_suffix`, identical in both files up to message
text: month-end date of `MM/20YY` at confidence 0.95. -/
def validate_prefix_yymm_suffix (now : Date) (code : List Char) : Bool × String × List Interp :=
  match matchPrefixYymm code with
  | none => (false, "Not Prefix-YYMM-Suffix pattern", [])
  | some (prefix_char, yy_str, mm_str, suffix_str) =>
    let yy := natOfDigits yy_str
    let mm := natOfDigits mm_str
    if ¬(1 ≤ mm ∧ mm ≤ 12) then
      (false, "Invalid month '" ++ String.mk mm_str ++ "'", [])
    else match resolve_two_digit_year now yy with
    | .error _ => (false, "Invalid data for Prefix-YYMM-Suffix", [])
    | .ok year =>
      if ¬(2015 ≤ year ∧ year ≤ now.y + 1) then
        (false, "Year " ++ toString year ++ " out of range", [])
      else match mkDatetime year mm (daysInMonth year mm) with
      | none => (false, "Invalid data for Prefix-YYMM-Suffix", [])
      | some prod_date =>
        match add_years prod_date 3 with
        | .error _ => (false, "Invalid data for Prefix-YYMM-Suffix", [])
        | .ok expiry_date =>
          if is_valid_expiry now expiry_date then
            (true,
             "Prefix-YYMM-Suffix (Prefix: " ++ String.mk [prefix_char] ++ ", Date: "
               ++ pad2 mm ++ "/" ++ toString year ++ ", Suffix: " ++ String.mk suffix_str ++ ")",
             [{ production_date := prod_date, expiry_date := expiry_date,
                pfx := some (String.mk [prefix_char]), suffix := some (String.mk suffix_str),
                confidence := 95, format_type := "Prefix-YYMM-Suffix" }])
          else (false, "Invalid data for Prefix-YYMM-Suffix", [])

/-- `validate_special_prefix` of `src/batch_code_reader.py` (lines 655-701):
only the MM/YY-as-month-end reading of a 4-digit date run (this file's copy
has no delegation to `parse_date_variants`), followed by the
sort-and-deduplicate-by-production-date pass. -/
def validate_special_pfx (now : Date) (code : List Char) : Bool × String × List Interp :=
  match matchSpecialPfx code with
  | none => (false, "Not special_prefix pattern", [])
  | some (prefix_char, date_digits_str, suffix_str) =>
    let final_results : List Interp :=
      if date_digits_str.length = 4 then
        let p1 := natOfDigits (date_digits_str.take 2)
        let p2_or_yy := natOfDigits (date_digits_str.drop 2)
        match resolve_two_digit_year now p2_or_yy with
        | .error _ => []
        | .ok year_mmyy =>
          if 1 ≤ p1 ∧ p1 ≤ 12 ∧ 2015 ≤ year_mmyy ∧ year_mmyy ≤ now.y + 1 then
            match mkDatetime year_mmyy p1 (daysInMonth year_mmyy p1) with
            | none => []
            | some prod_dt_mmyy =>
              if prod_dt_mmyy.toOrdinal ≤ now.toOrdinal + 90 then
                match add_years prod_dt_mmyy 3 with
                | .error _ => []
                | .ok expiry_dt_mmyy =>
                  if is_valid_expiry now expiry_dt_mmyy then
                    [{ production_date := prod_dt_mmyy, expiry_date := expiry_dt_mmyy,
                       pfx := some (String.mk [prefix_char]),
                       suffix := some (String.mk suffix_str), confidence := 75,
                       format_type := "Special Prefix (" ++ String.mk [prefix_char] ++ ") + MMYY" }]
                  else []
              else []
          else []
      else []
    if final_results ≠ [] then
      let unique := dedupBy (fun r => r.production_date)
        (sortAsc (fun r => r.production_date.toOrdinal) final_results)
      if unique ≠ [] then (true, "Special Prefix", unique)
      else (false, "Invalid data for special_prefix", [])
    else (false, "Invalid data for special_prefix", [])

/-- First block of `validate_legacy_formats` (identical in both files): the
DDDYYBB rule for 7-digit all-digit codes. -/
def legacy_dddyybb (now : Date) (code : List Char) : List Interp :=
  if code.length = 7 ∧ code.all isDigitChar then
    let ddd := natOfDigits (code.take 3)
    let yy := natOfDigits ((code.drop 3).take 2)
    let batch_suffix := String.mk (code.drop 5)
    match resolve_two_digit_year now yy with
    | .error _ => []
    | .ok year =>
      if 2015 ≤ year ∧ year ≤ now.y + 1 then
        match julian_to_date year ddd with
        | .error _ => []
        | .ok prod_date =>
          match add_years prod_date 3 with
          | .error _ => []
          | .ok expiry_date =>
            if is_valid_expiry now expiry_date then
              [{ production_date := prod_date, expiry_date := expiry_date,
                 batch := some batch_suffix, confidence := 80,
                 format_type := "Legacy DDDYYBB (Julian)" }]
            else []
      else []
  else []

/-- Second block of `validate_legacy_formats` (identical in both files): the
YYDDD(+suffix) rule for codes with five leading digits, appended to the
first block's results unless it would duplicate a DDDYYBB production date
(duplication only checked for 7-character codes). -/
def legacy_yyddd (now : Date) (code : List Char) (results1 : List Interp) : List Interp :=
  if 5 ≤ code.length ∧ (code.take 5).all isDigitChar then
    let yy := natOfDigits (code.take 2)
    let ddd := natOfDigits ((code.drop 2).take 3)
    let suffix_val := String.mk (code.drop 5)
    match resolve_two_digit_year now yy with
    | .error _ => results1
    | .ok year =>
      if 2015 ≤ year ∧ year ≤ now.y + 1 then
        match julian_to_date year ddd with
        | .error _ => results1
        | .ok prod_date =>
          match add_years prod_date 3 with
          | .error _ => results1
          | .ok expiry_date =>
            if is_valid_expiry now expiry_date then
              let is_dup :=
                if code.length = 7 then
                  results1.any (fun r =>
                    r.format_type == "Legacy DDDYYBB (Julian)" && r.production_date == prod_date)
                else false
              if ¬ is_dup then
                results1 ++ [{ production_date := prod_date, expiry_date := expiry_date,
                               suffix := some suffix_val, confidence := 80,
                               format_type := "Legacy YYDDD (Julian)"
                                 ++ (if suffix_val ≠ "" then " + Suffix" else "") }]
              else results1
            else results1
      else results1
  else results1

/-- `validate_legacy_formats`, identical in both files: the DDDYYBB rule for
7-digit codes and the YYDDD(+suffix) rule for codes with 5 leading digits,
the second suppressed when it would duplicate the first's production date
(only checked for 7-character codes). -/
def validate_legacy_formats (now : Date) (code : List Char) : Bool × String × List Interp :=
  let results := legacy_yyddd now code (legacy_dddyybb now code)
  if results ≠ [] then (true, "Legacy Format Match", results)
  else (false, "No legacy format match", [])

/-- The separator class of `batch_code_reader.py`'s `re.sub(r'[-_./\\\s]', ...)`:
hyphen, underscore, dot, slash, backslash and whitespace. -/
def isSeparator (c : Char) : Bool :=
  c = '-' || c = '_' || c = '.' || c = '/' || c = '\\' || pySpace c

/-- Normalization of `analyze_batch_code` in `batch_code_reader.py`:
`code.strip()`, `.upper()`, then separator removal. -/
def cleaned_code (code : List Char) : List Char :=
  ((pyStrip code).map upperChar).filter (fun c => ! isSeparator c)

/-- All interpretations collected over the eight validators in priority
order (the source's `all_interpretations`). -/
def collectInterps (now : Date) (cc : List Char) : List Interp :=
  tagged "YDDD-BB" (validate_yddd_bb now cc)
    ++ tagged "Prefix-YYMM-Suffix" (validate_prefix_yymm_suffix now cc)
    ++ tagged "Julian DDDYY+Suffix" (validate_historical_pattern_3 now cc)
    ++ tagged "DDMMYY+Suffix" (validate_historical_pattern_1 now cc)
    ++ tagged "Date+Alpha Suffix" (validate_historical_pattern_4 now cc)
    ++ tagged "DDMMYY or MMDDYY" (validate_historical_pattern_2 now cc)
    ++ tagged "Legacy Formats" (validate_legacy_formats now cc)
    ++ tagged "Special Prefix" (validate_special_pfx now cc)

/-- `analyze_batch_code` of `src/batch_code_reader.py` (lines 751-811):
normalize, collect over all validators (each call wrapped in the absorbing
`except Exception` handler — every embedded validator is total, so the
handler has nothing to absorb), apply the YDDD-vs-DDDYY collision rule,
deduplicate in confidence-descending order, and sort by confidence. -/
def analyze_batch_code (now : Date) (code : List Char) : Bool × String × List Interp :=
  let cc := cleaned_code code
  if cc = [] then (false, "Empty code", [])
  else
    let all_interpretations := collectInterps now cc
    if all_interpretations ≠ [] then
      let has_yddd := all_interpretations.any (fun i => i.format_type == "YDDD BB")
      let has_dddyy := all_interpretations.any (fun i =>
        i.format_type == "Julian DDDYY + Suffix"
          || i.format_type == "Julian DDDYY + Alpha Suffix"
          || i.format_type == "Legacy DDDYYBB (Julian)")
      let all2 :=
        if has_yddd ∧ has_dddyy then
          all_interpretations.filter (fun i => i.format_type != "YDDD BB")
        else all_interpretations
      let unique := dedupBy dedupKey (sortDesc (fun i => i.confidence) all2)
      if unique = [] then (false, "No valid interpretations after filtering", [])
      else
        let final := sortDesc (fun i => i.confidence) unique
        (true,
         "Found " ++ toString final.length ++ " valid interpretation"
           ++ (if final.length > 1 then "s" else ""),
         final)
    else (false, "No valid date patterns found", [])

end BCR

namespace AF

/-- `parse_date_variants` of `src/app_fixed.py` (lines 130-179).  The only
structural difference from `BCR.parse_date_variants` is that the
MM/YY-month-end reading runs in a second loop over the surviving years
after the DD/MM and MM/DD loop; since at most one year survives the
`[2015, current_year+1]` filter the two produce identical candidate lists
(proved below as `parse_date_variants_agree`). -/
def parse_date_variants (now : Date) (part1 part2 yy : Nat) : List Date :=
  let current_year := now.y
  let resolved_years_to_try : List Nat :=
    if yy ≤ 99 then
      (if yy > current_year % 100 + 5 then [1900 + yy] else []) ++ [2000 + yy]
    else [yy]
  let valid_prod_years :=
    resolved_years_to_try.filter (fun yv => 2015 ≤ yv && yv ≤ current_year + 1)
  let maxOrd := now.toOrdinal + 90
  let cand12 := valid_prod_years.foldl (dateReadingsStep12 maxOrd part1 part2) []
  let candidates :=
    if 1 ≤ part1 ∧ part1 ≤ 12 then
      valid_prod_years.foldl (dateReadingsStep3 maxOrd part1) cand12
    else cand12
  dedupBy (fun d => d) (sortAsc Date.toOrdinal candidates)

/-- `validate_yddd_bb` of `src/app_fixed.py` (identical logic to the
`batch_code_reader.py` copy; only the diagnostic message texts differ). -/
def validate_yddd_bb (now : Date) (code : List Char) : Bool × String × List Interp :=
  match matchYdddBb code with
  | none => (false, "Not YDDD BB pattern", [])
  | some (y_str, ddd_str, bb_str) =>
    let y_digit := natOfDigits y_str
    let ddd := natOfDigits ddd_str
    let current_year := now.y
    let year := decade_heuristic_year current_year y_digit
    if ¬(2015 ≤ year ∧ year ≤ current_year + 1) then
      (false, "Resolved year " ++ toString year ++ " is out of valid range (2015-current)", [])
    else
      match julian_to_date year ddd with
      | .error _ => (false, "Invalid data for YDDD BB pattern in code '" ++ String.mk code ++ "'", [])
      | .ok prod_date =>
        match add_years prod_date 3 with
        | .error _ => (false, "Invalid data for YDDD BB pattern in code '" ++ String.mk code ++ "'", [])
        | .ok expiry_date =>
          if is_valid_expiry now expiry_date then
            (true,
             "YDDD BB (Year: " ++ toString year ++ ", Julian: " ++ toString ddd
               ++ ", Batch: " ++ String.mk bb_str ++ ")",
             [{ production_date := prod_date, expiry_date := expiry_date,
                julian_day := some ddd, batch := some (String.mk bb_str),
                confidence := 98, format_type := "YDDD BB" }])
          else (false, "Invalid data for YDDD BB pattern in code '" ++ String.mk code ++ "'", [])

/-- `validate_historical_pattern_1` of `src/app_fixed.py`. -/
def validate_historical_pattern_1 (now : Date) (code : List Char) : Bool × String × List Interp :=
  match matchDdmmyyyy code with
  | none => (false, "Not historical pattern 1", [])
  | some (day_str, month_str, yy_str, suffix_str) =>
    let day := natOfDigits day_str
    let month := natOfDigits month_str
    let yy := natOfDigits yy_str
    let candidates := parse_date_variants now day month yy
    match process_parsed_dates now (String.mk suffix_str) 90 "DD/MM/YY or MM/DD/YY" candidates with
    | .error _ => (false, "Invalid data historical pattern 1 code '" ++ String.mk code ++ "'", [])
    | .ok results =>
      if results ≠ [] then
        let results := results.map (fun r =>
          if r.production_date.d = day ∧ r.production_date.m = month then
            { r with format_type := "DD/MM/YY + suffix" }
          else if r.production_date.m = day ∧ r.production_date.d = month then
            { r with format_type := "MM/DD/YY + suffix" }
          else { r with format_type := "Parsed Date (MM/YY?) + suffix" })
        (true, "Historical Pattern 1 (Day/Month/Year with suffix) Suffix: " ++ String.mk suffix_str,
         results)
      else (false, "Invalid data historical pattern 1 code '" ++ String.mk code ++ "'", [])

/-- `validate_historical_pattern_2` of `src/app_fixed.py` (its second
non-match message is reachable only if the regex failed on a six-digit
string, which cannot happen). -/
def validate_historical_pattern_2 (now : Date) (code : List Char) : Bool × String × List Interp :=
  match matchDdmmyy code with
  | none =>
    if code.length ≠ 6 ∨ ¬ code.all isDigitChar then
      (false, "Not historical pattern 2 (len/type)", [])
    else (false, "Not historical pattern 2 (regex mismatch)", [])
  | some (p1_str, p2_str, yy_str) =>
    let part1 := natOfDigits p1_str
    let part2 := natOfDigits p2_str
    let yy := natOfDigits yy_str
    let candidates := parse_date_variants now part1 part2 yy
    match process_parsed_dates now "" 85 "DD/MM/YY or MM/DD/YY" candidates with
    | .error _ => (false, "Invalid data historical pattern 2 code '" ++ String.mk code ++ "'", [])
    | .ok results =>
      if results ≠ [] then
        let results := results.map (fun r =>
          if r.production_date.d = part1 ∧ r.production_date.m = part2 then
            { r with format_type := "DD/MM/YY" }
          else if r.production_date.m = part1 ∧ r.production_date.d = part2 then
            { r with format_type := "MM/DD/YY" }
          else { r with format_type := "MM/YY (End of Month)" })
        (true, "Historical Pattern 2 (Day/Month/Year or Month/Day/Year)", results)
      else (false, "Invalid data historical pattern 2 code '" ++ String.mk code ++ "'", [])

/-- `validate_historical_pattern_3` of `src/app_fixed.py`. -/
def validate_historical_pattern_3 (now : Date) (code : List Char) : Bool × String × List Interp :=
  match matchJulianSuffix code with
  | none => (false, "Not historical pattern 3", [])
  | some (ddd_str, yy_str, suffix_str) =>
    let ddd := natOfDigits ddd_str
    let yy := natOfDigits yy_str
    match resolve_two_digit_year now yy with
    | .error _ => (false, "Invalid data historical pattern 3 code '" ++ String.mk code ++ "'", [])
    | .ok year =>
      if ¬(2015 ≤ year ∧ year ≤ now.y + 1) then
        (false, "Year " ++ toString year ++ " out of range hist.P3", [])
      else match julian_to_date year ddd with
      | .error _ => (false, "Invalid data historical pattern 3 code '" ++ String.mk code ++ "'", [])
      | .ok prod_date =>
        match add_years prod_date 3 with
        | .error _ => (false, "Invalid data historical pattern 3 code '" ++ String.mk code ++ "'", [])
        | .ok expiry_date =>
          if is_valid_expiry now expiry_date then
            (true,
             "Historical Pattern 3 (Julian " ++ toString ddd ++ "/" ++ toString year
               ++ " + suffix: " ++ String.mk suffix_str ++ ")",
             [{ production_date := prod_date, expiry_date := expiry_date,
                julian_day := some ddd, suffix := some (String.mk suffix_str),
                confidence := 95, format_type := "Julian DDDYY + Suffix" }])
          else (false, "Invalid data historical pattern 3 code '" ++ String.mk code ++ "'", [])

/-- `validate_historical_pattern_4` of `src/app_fixed.py` (lines 293-324):
unlike the `batch_code_reader.py` copy, the 4-digit branch rewrites each
candidate's format label by comparing the decoded day/month against the
two fields. -/
def validate_historical_pattern_4 (now : Date) (code : List Char) : Bool × String × List Interp :=
  match matchMixedAlpha code with
  | none => (false, "Not historical pattern 4", [])
  | some (date_part_str, yy_str, alpha_suffix) =>
    let yy := natOfDigits yy_str
    if date_part_str.length = 3 then
      let ddd := natOfDigits date_part_str
      let final_results : List Interp :=
        match resolve_two_digit_year now yy with
        | .error _ => []
        | .ok year_resolved =>
          if 2015 ≤ year_resolved ∧ year_resolved ≤ now.y + 1 then
            match julian_to_date year_resolved ddd with
            | .error _ => []
            | .ok prod_date =>
              match add_years prod_date 3 with
              | .error _ => []
              | .ok expiry_date =>
                if is_valid_expiry now expiry_date then
                  [{ production_date := prod_date, expiry_date := expiry_date,
                     julian_day := some ddd,
                     alpha_suffix := some (String.mk alpha_suffix),
                     confidence := 90, format_type := "Julian DDDYY + Alpha Suffix" }]
                else []
          else []
      if final_results ≠ [] then
        (true,
         "Historical Pattern 4 (Date digits + alphabetic suffix) Alpha Suffix: "
           ++ String.mk alpha_suffix,
         final_results)
      else (false, "Invalid data historical pattern 4 code '" ++ String.mk code ++ "'", [])
    else if date_part_str.length = 4 then
      let p1 := natOfDigits (date_part_str.take 2)
      let p2 := natOfDigits (date_part_str.drop 2)
      let candidates := parse_date_variants now p1 p2 yy
      match process_parsed_dates now (String.mk alpha_suffix) 85 "DDMMYY/MMDDYY + Alpha" candidates with
      | .error _ => (false, "Invalid data historical pattern 4 code '" ++ String.mk code ++ "'", [])
      | .ok processed =>
        let final_results := processed.map (fun r =>
          let r := { r with alpha_suffix := some (String.mk alpha_suffix) }
          if r.production_date.d = p1 ∧ r.production_date.m = p2 then
            { r with format_type := "DDMMYY + Alpha Suffix" }
          else if r.production_date.m = p1 ∧ r.production_date.d = p2 then
            { r with format_type := "MMDDYY + Alpha Suffix" }
          else { r with format_type := "MMYY (End of Month) + Alpha Suffix" })
        if final_results ≠ [] then
          (true,
           "Historical Pattern 4 (Date digits + alphabetic suffix) Alpha Suffix: "
             ++ String.mk alpha_suffix,
           final_results)
        else (false, "Invalid data historical pattern 4 code '" ++ String.mk code ++ "'", [])
    else (false, "Invalid data historical pattern 4 code '" ++ String.mk code ++ "'", [])

/-- `validate_prefix_yymm_suffix` of `src/app_fixed.py`. -/
def validate_prefix_yymm_suffix (now : Date) (code : List Char) : Bool × String × List Interp :=
  match matchPrefixYymm code with
  | none => (false, "Not Prefix-YYMM-Suffix pattern", [])
  | some (prefix_char, yy_str, mm_str, suffix_str) =>
    let yy := natOfDigits yy_str
    let mm := natOfDigits mm_str
    if ¬(1 ≤ mm ∧ mm ≤ 12) then
      (false, "Invalid month '" ++ String.mk mm_str ++ "' for pattern", [])
    else match resolve_two_digit_year now yy with
    | .error _ => (false, "Invalid data for Prefix-YYMM-Suffix in code '" ++ String.mk code ++ "'", [])
    | .ok year =>
      if ¬(2015 ≤ year ∧ year ≤ now.y + 1) then
        (false, "Year " ++ toString year ++ " out of range for pattern", [])
      else match mkDatetime year mm (daysInMonth year mm) with
      | none => (false, "Invalid data for Prefix-YYMM-Suffix in code '" ++ String.mk code ++ "'", [])
      | some prod_date =>
        match add_years prod_date 3 with
        | .error _ => (false, "Invalid data for Prefix-YYMM-Suffix in code '" ++ String.mk code ++ "'", [])
        | .ok expiry_date =>
          if is_valid_expiry now expiry_date then
            (true,
             "Prefix-YYMM-Suffix (Prefix: " ++ String.mk [prefix_char] ++ ", Date: "
               ++ pad2 mm ++ "/" ++ toString year ++ ", Suffix: " ++ String.mk suffix_str ++ ")",
             [{ production_date := prod_date, expiry_date := expiry_date,
                pfx := some (String.mk [prefix_char]), suffix := some (String.mk suffix_str),
                confidence := 95, format_type := "Prefix-YYMM-Suffix" }])
          else (false, "Invalid data for Prefix-YYMM-Suffix in code '" ++ String.mk code ++ "'", [])

/-- `validate_special_prefix` of `src/app_fixed.py` (lines 345-378): for a
4-digit date run it tries the MM/YY-as-month-end reading AND delegates to
`parse_date_variants` on `(p1, p2_or_yy, p2_or_yy)`, unions the two result
lists, and deduplicates them by production date after a stable
production-date sort. -/
def validate_special_pfx (now : Date) (code : List Char) : Bool × String × List Interp :=
  match matchSpecialPfx code with
  | none => (false, "Not special_prefix pattern", [])
  | some (prefix_char, date_digits_str, suffix_str) =>
    if date_digits_str.length = 4 then
      let p1 := natOfDigits (date_digits_str.take 2)
      let p2_or_yy := natOfDigits (date_digits_str.drop 2)
      match resolve_two_digit_year now p2_or_yy with
      | .error _ => (false, "Invalid data for special_prefix in code '" ++ String.mk code ++ "'", [])
      | .ok year_mmyy =>
        let mmyy_results : List Interp :=
          if 1 ≤ p1 ∧ p1 ≤ 12 ∧ 2015 ≤ year_mmyy ∧ year_mmyy ≤ now.y + 1 then
            match mkDatetime year_mmyy p1 (daysInMonth year_mmyy p1) with
            | none => []
            | some prod_dt_mmyy =>
              if prod_dt_mmyy.toOrdinal ≤ now.toOrdinal + 90 then
                match add_years prod_dt_mmyy 3 with
                | .error _ => []
                | .ok expiry_dt_mmyy =>
                  if is_valid_expiry now expiry_dt_mmyy then
                    [{ production_date := prod_dt_mmyy, expiry_date := expiry_dt_mmyy,
                       pfx := some (String.mk [prefix_char]),
                       suffix := some (String.mk suffix_str), confidence := 75,
                       format_type := "Special Prefix (" ++ String.mk [prefix_char]
                         ++ ") + MMYY (" ++ pad2 p1 ++ "/" ++ pad2 p2_or_yy
                         ++ ") + Suffix (" ++ String.mk suffix_str ++ ")" }]
                  else []
              else []
          else []
        let candidates_ddmmyy_etc := parse_date_variants now p1 p2_or_yy p2_or_yy
        match process_parsed_dates now "" 70 "" candidates_ddmmyy_etc with
        | .error _ => (false, "Invalid data for special_prefix in code '" ++ String.mk code ++ "'", [])
        | .ok processed_ddmmyy =>
          let processed_ddmmyy := processed_ddmmyy.map (fun r =>
            { r with pfx := some (String.mk [prefix_char]),
                     suffix := some (String.mk suffix_str),
                     format_type := "Special Prefix (" ++ String.mk [prefix_char]
                       ++ ") + Parsed(" ++ String.mk date_digits_str
                       ++ ") + Suffix (" ++ String.mk suffix_str ++ ")" })
          let final_results := mmyy_results ++ processed_ddmmyy
          if final_results ≠ [] then
            let unique := dedupBy (fun r => r.production_date)
              (sortAsc (fun r => r.production_date.toOrdinal) final_results)
            if unique ≠ [] then
              (true,
               "Special Prefix (Prefix: " ++ String.mk [prefix_char]
                 ++ ", Suffix: " ++ String.mk suffix_str ++ ")",
               unique)
            else (false, "Invalid data for special_prefix in code '" ++ String.mk code ++ "'", [])
          else (false, "Invalid data for special_prefix in code '" ++ String.mk code ++ "'", [])
    else (false, "Invalid data for special_prefix in code '" ++ String.mk code ++ "'", [])

/-- `validate_legacy_formats` of `src/app_fixed.py` is byte-identical (up
to logging) to the `batch_code_reader.py` copy. -/
def validate_legacy_formats : Date → List Char → Bool × String × List Interp :=
  BCR.validate_legacy_formats

/-- The separator class of `app_fixed.py`'s `re.sub(r'[-_./\\s]', ...)`.
In that raw string `\\` is an escaped backslash and the following `s` is a
literal letter, so the class is hyphen, underscore, dot, slash, backslash
and lowercase `s` — it does not match whitespace (and since the code is
uppercased first, the `s` member is dead). -/
def isSeparator (c : Char) : Bool :=
  c = '-' || c = '_' || c = '.' || c = '/' || c = '\\' || c = 's'

/-- Normalization of `analyze_batch_code` in `app_fixed.py`. -/
def cleaned_code (code : List Char) : List Char :=
  ((pyStrip code).map upperChar).filter (fun c => ! isSeparator c)

/-- All interpretations collected over the eight validators of
`app_fixed.py` in priority order. -/
def collectInterps (now : Date) (cc : List Char) : List Interp :=
  tagged "Historical-7 (YDDD-BB)" (validate_yddd_bb now cc)
    ++ tagged "Historical-6 (Prefix-YYMM-Suffix)" (validate_prefix_yymm_suffix now cc)
    ++ tagged "Historical-3 (Julian DDDYY+Suffix)" (validate_historical_pattern_3 now cc)
    ++ tagged "Historical-1 (DDMMYY+Suffix like)" (validate_historical_pattern_1 now cc)
    ++ tagged "Historical-4 (Date+Alpha Suffix)" (validate_historical_pattern_4 now cc)
    ++ tagged "Historical-2 (DDMMYY or MMDDYY 6-digit)" (validate_historical_pattern_2 now cc)
    ++ tagged "Legacy Formats (DDDYYBB, YYDDD)" (validate_legacy_formats now cc)
    ++ tagged "Historical-5 (Special Prefix Fallback)" (validate_special_pfx now cc)

/-- `analyze_batch_code` of `src/app_fixed.py` (lines 408-454).  Its empty
branch distinguishes an originally-empty code from one emptied by the
separator removal. -/
def analyze_batch_code (now : Date) (code : List Char) : Bool × String × List Interp :=
  let code_orig := pyStrip code
  let cc := cleaned_code code
  if cc = [] then
    (false, if code_orig ≠ [] then "Code empty after cleaning" else "Empty code", [])
  else
    let all_interpretations := collectInterps now cc
    if all_interpretations ≠ [] then
      let has_yddd := all_interpretations.any (fun i => i.format_type == "YDDD BB")
      let has_dddyy := all_interpretations.any (fun i =>
        i.format_type == "Julian DDDYY + Suffix"
          || i.format_type == "Julian DDDYY + Alpha Suffix"
          || i.format_type == "Legacy DDDYYBB (Julian)")
      let all2 :=
        if has_yddd ∧ has_dddyy then
          all_interpretations.filter (fun i => i.format_type != "YDDD BB")
        else all_interpretations
      let unique := dedupBy dedupKey (sortDesc (fun i => i.confidence) all2)
      if unique = [] then (false, "No valid interpretations after filtering", [])
      else
        let final := sortDesc (fun i => i.confidence) unique
        (true,
         "Found " ++ toString final.length ++ " valid interpretation"
           ++ (if final.length > 1 then "s" else ""),
         final)
    else (false, "No valid date patterns found by any validator", [])

end AF

/-- Lexicographic (= timeline, for valid dates) strict order on dates. -/
def lexLt (a b : Date) : Prop :=
  a.y < b.y ∨ (a.y = b.y ∧ (a.m < b.m ∨ (a.m = b.m ∧ a.d < b.d)))

/-- The per-interpretation guarantee every decoder establishes before
emitting: the production date is a constructible calendar date, the expiry
is its 3-year `add_years` image, and the expiry passed `is_valid_expiry`. -/
def GoodInterp (now : Date) (i : Interp) : Prop :=
  i.production_date.valid = true
    ∧ add_years i.production_date 3 = .ok i.expiry_date
    ∧ is_valid_expiry now i.expiry_date = true

/-! ## Theorems -/

/-! ### Calendar arithmetic -/

theorem isLeap_iff (y : Nat) :
    isLeap y = true ↔ ((y % 4 = 0 ∧ y % 100 ≠ 0) ∨ y % 400 = 0) := by
  simp [isLeap, Bool.or_eq_true, Bool.and_eq_true, beq_iff_eq, bne_iff_ne]

theorem valid_iff (dt : Date) :
    dt.valid = true ↔
      (1 ≤ dt.y ∧ dt.y ≤ 9999 ∧ 1 ≤ dt.m ∧ dt.m ≤ 12 ∧ 1 ≤ dt.d
        ∧ dt.d ≤ daysInMonth dt.y dt.m) := by
  simp [Date.valid, Bool.and_eq_true, decide_eq_true_eq, and_assoc]

theorem monthLen_le_31 : ∀ (b : Bool), ∀ m < 13, monthLen b m ≤ 31 := by
  intro b; cases b <;> decide

theorem monthLen_eq_of_ne_two :
    ∀ (b b' : Bool), ∀ m < 13, m ≠ 2 → monthLen b m = monthLen b' m := by
  intro b b'; cases b <;> cases b' <;> decide

theorem daysBeforeMonth_two : ∀ b : Bool, daysBeforeMonth b 2 = 31 := by decide

theorem doy_bounds_aux :
    ∀ (b : Bool), ∀ m < 13, ∀ d < 32, (1 ≤ m ∧ 1 ≤ d ∧ d ≤ monthLen b m) →
      1 ≤ daysBeforeMonth b m + d ∧ daysBeforeMonth b m + d ≤ (if b then 366 else 365) := by
  intro b; cases b <;> decide

theorem doy_mono_aux :
    ∀ (b : Bool), ∀ m1 < 13, ∀ m2 < 13, (1 ≤ m1 ∧ m1 < m2 ∧ m2 ≤ 12) →
      daysBeforeMonth b m1 + monthLen b m1 ≤ daysBeforeMonth b m2 := by
  intro b; cases b <;> decide

set_option maxHeartbeats 1600000 in
set_option maxRecDepth 4000 in
theorem monthOf_correct :
    ∀ (b : Bool), ∀ ddd < 367, (1 ≤ ddd ∧ ddd ≤ (if b then 366 else 365)) →
      1 ≤ monthOfYearDay b ddd ∧ monthOfYearDay b ddd ≤ 12
        ∧ daysBeforeMonth b (monthOfYearDay b ddd) < ddd
        ∧ ddd - daysBeforeMonth b (monthOfYearDay b ddd)
            ≤ monthLen b (monthOfYearDay b ddd) := by
  intro b; cases b <;> decide

theorem dayOfYear_bounds (dt : Date) (h : dt.valid = true) :
    1 ≤ dayOfYear dt ∧ dayOfYear dt ≤ daysInYear dt.y := by
  obtain ⟨h1, h2, h3, h4, h5, h6⟩ := (valid_iff dt).mp h
  have h6' : dt.d ≤ monthLen (isLeap dt.y) dt.m := h6
  have h31 : monthLen (isLeap dt.y) dt.m ≤ 31 := monthLen_le_31 _ dt.m (by omega)
  have hb := doy_bounds_aux (isLeap dt.y) dt.m (by omega) dt.d (by omega) ⟨h3, h5, h6'⟩
  simpa [dayOfYear, daysInYear] using hb

set_option maxHeartbeats 1600000 in
theorem yearOffset_succ (y : Nat) (hy : 1 ≤ y) :
    yearOffset (y + 1) = yearOffset y + daysInYear y := by
  have h := isLeap_iff y
  unfold yearOffset daysInYear
  by_cases hL : isLeap y = true
  · rw [if_pos hL]
    have := h.mp hL
    omega
  · rw [if_neg hL]
    have hnot : ¬((y % 4 = 0 ∧ y % 100 ≠ 0) ∨ y % 400 = 0) := fun hh => hL (h.mpr hh)
    omega

theorem yearOffset_mono {a b : Nat} (h1 : 1 ≤ a) (h : a ≤ b) :
    yearOffset a ≤ yearOffset b := by
  induction b with
  | zero => omega
  | succ n ih =>
    rcases Nat.lt_or_ge a (n + 1) with hlt | hge
    · have han : a ≤ n := by omega
      have h1n : 1 ≤ n := by omega
      calc yearOffset a ≤ yearOffset n := ih han
        _ ≤ yearOffset n + daysInYear n := Nat.le_add_right _ _
        _ = yearOffset (n + 1) := (yearOffset_succ n h1n).symm
    · have hEq : a = n + 1 := by omega
      rw [hEq]

theorem yearOffset_add_days_le {a b : Nat} (h1 : 1 ≤ a) (h : a < b) :
    yearOffset a + daysInYear a ≤ yearOffset b := by
  calc yearOffset a + daysInYear a = yearOffset (a + 1) := (yearOffset_succ a h1).symm
    _ ≤ yearOffset b := yearOffset_mono (by omega) (by omega)

theorem toOrdinal_eq_yearOffset_add (dt : Date) :
    dt.toOrdinal = yearOffset dt.y + dayOfYear dt := by
  simp [Date.toOrdinal, dayOfYear, Nat.add_assoc]

theorem toOrdinal_lt_of_lexLt {a b : Date} (ha : a.valid = true) (hb : b.valid = true)
    (h : lexLt a b) : a.toOrdinal < b.toOrdinal := by
  obtain ⟨ha1, _, ha3, ha4, ha5, ha6⟩ := (valid_iff a).mp ha
  obtain ⟨hb1, _, hb3, hb4, hb5, hb6⟩ := (valid_iff b).mp hb
  have hda := dayOfYear_bounds a ha
  have hdb := dayOfYear_bounds b hb
  rw [toOrdinal_eq_yearOffset_add, toOrdinal_eq_yearOffset_add]
  rcases h with hy | ⟨hy, hm | ⟨hm, hd⟩⟩
  · have := yearOffset_add_days_le ha1 hy
    omega
  · have hmono := doy_mono_aux (isLeap a.y) a.m (by omega) b.m (by omega) ⟨ha3, hm, hb4⟩
    have hyoff : yearOffset a.y = yearOffset b.y := by rw [hy]
    have hleap : isLeap a.y = isLeap b.y := by rw [hy]
    have ha6' : a.d ≤ monthLen (isLeap a.y) a.m := ha6
    unfold dayOfYear
    rw [← hleap, ← hyoff]
    omega
  · have hyoff : yearOffset a.y = yearOffset b.y := by rw [hy]
    have hleap : isLeap a.y = isLeap b.y := by rw [hy]
    unfold dayOfYear
    rw [← hleap, ← hyoff, hm]
    omega

theorem lex_trichotomy (a b : Date) : lexLt a b ∨ a = b ∨ lexLt b a := by
  cases a with
  | mk ay am ad =>
    cases b with
    | mk by' bm bd =>
      simp only [lexLt, Date.mk.injEq]
      omega

theorem toOrdinal_le_of_not_lt {a b : Date} (ha : a.valid = true) (hb : b.valid = true)
    (h : ¬ lexLt b a) : a.toOrdinal ≤ b.toOrdinal := by
  rcases lex_trichotomy a b with hlt | heq | hgt
  · exact Nat.le_of_lt (toOrdinal_lt_of_lexLt ha hb hlt)
  · rw [heq]
  · exact absurd hgt h

theorem not_lexLt_of_toOrdinal_le {a b : Date} (ha : a.valid = true) (hb : b.valid = true)
    (h : a.toOrdinal ≤ b.toOrdinal) : ¬ lexLt b a := by
  intro hlt
  have := toOrdinal_lt_of_lexLt hb ha hlt
  omega

theorem toOrdinal_inj {a b : Date} (ha : a.valid = true) (hb : b.valid = true)
    (h : a.toOrdinal = b.toOrdinal) : a = b := by
  rcases lex_trichotomy a b with hlt | heq | hgt
  · have := toOrdinal_lt_of_lexLt ha hb hlt; omega
  · exact heq
  · have := toOrdinal_lt_of_lexLt hb ha hgt; omega

theorem lexLt_shift {ay am ad by' bm bd n : Nat}
    (h : lexLt ⟨ay, am, ad⟩ ⟨by', bm, bd⟩) :
    lexLt ⟨ay + n, am, ad⟩ ⟨by' + n, bm, bd⟩ := by
  simp only [lexLt] at h ⊢
  omega

theorem lexLt_unshift {ay am ad by' bm bd n : Nat}
    (h : lexLt ⟨ay + n, am, ad⟩ ⟨by' + n, bm, bd⟩) :
    lexLt ⟨ay, am, ad⟩ ⟨by', bm, bd⟩ := by
  simp only [lexLt] at h ⊢
  omega

/-! ### Sorting and deduplication lemmas -/

theorem mem_insertAsc {k : α → Nat} {x y : α} {l : List α} :
    y ∈ insertAsc k x l ↔ y = x ∨ y ∈ l := by
  induction l with
  | nil => simp [insertAsc]
  | cons a as ih =>
    simp only [insertAsc]
    split
    · simp [List.mem_cons]
    · simp only [List.mem_cons, ih]
      tauto

theorem mem_sortAsc {k : α → Nat} {y : α} {l : List α} :
    y ∈ sortAsc k l ↔ y ∈ l := by
  induction l with
  | nil => simp [sortAsc]
  | cons a as ih => simp [sortAsc, mem_insertAsc, ih]

theorem mem_insertDesc {k : α → Nat} {x y : α} {l : List α} :
    y ∈ insertDesc k x l ↔ y = x ∨ y ∈ l := by
  induction l with
  | nil => simp [insertDesc]
  | cons a as ih =>
    simp only [insertDesc]
    split
    · simp [List.mem_cons]
    · simp only [List.mem_cons, ih]
      tauto

theorem mem_sortDesc {k : α → Nat} {y : α} {l : List α} :
    y ∈ sortDesc k l ↔ y ∈ l := by
  induction l with
  | nil => simp [sortDesc]
  | cons a as ih => simp [sortDesc, mem_insertDesc, ih]

theorem length_insertAsc {k : α → Nat} {x : α} {l : List α} :
    (insertAsc k x l).length = l.length + 1 := by
  induction l with
  | nil => simp [insertAsc]
  | cons a as ih =>
    simp only [insertAsc]
    split <;> simp [ih]

theorem length_sortAsc {k : α → Nat} {l : List α} :
    (sortAsc k l).length = l.length := by
  induction l with
  | nil => simp [sortAsc]
  | cons a as ih => simp [sortAsc, length_insertAsc, ih]

theorem length_insertDesc {k : α → Nat} {x : α} {l : List α} :
    (insertDesc k x l).length = l.length + 1 := by
  induction l with
  | nil => simp [insertDesc]
  | cons a as ih =>
    simp only [insertDesc]
    split <;> simp [ih]

theorem length_sortDesc {k : α → Nat} {l : List α} :
    (sortDesc k l).length = l.length := by
  induction l with
  | nil => simp [sortDesc]
  | cons a as ih => simp [sortDesc, length_insertDesc, ih]

theorem pairwise_insertAsc {k : α → Nat} {x : α} {l : List α}
    (h : l.Pairwise (fun a b => k a ≤ k b)) :
    (insertAsc k x l).Pairwise (fun a b => k a ≤ k b) := by
  induction l with
  | nil => simp [insertAsc]
  | cons a as ih =>
    rcases List.pairwise_cons.mp h with ⟨ha, has⟩
    simp only [insertAsc]
    split
    · refine List.pairwise_cons.mpr ⟨?_, h⟩
      intro b hb
      rcases List.mem_cons.mp hb with rfl | hb'
      · omega
      · have := ha b hb'
        omega
    · refine List.pairwise_cons.mpr ⟨?_, ih has⟩
      intro b hb
      rcases mem_insertAsc.mp hb with rfl | hb'
      · omega
      · exact ha b hb'

theorem pairwise_sortAsc (k : α → Nat) (l : List α) :
    (sortAsc k l).Pairwise (fun a b => k a ≤ k b) := by
  induction l with
  | nil => simp [sortAsc]
  | cons a as ih => exact pairwise_insertAsc ih

theorem dedupByAux_sublist (k : α → β) [DecidableEq β] (seen : List β) (l : List α) :
    List.Sublist (dedupByAux k seen l) l := by
  induction l generalizing seen with
  | nil => simp [dedupByAux]
  | cons x xs ih =>
    simp only [dedupByAux]
    split
    · exact (ih seen).trans (List.sublist_cons_self x xs)
    · exact (ih (k x :: seen)).cons₂ x

theorem dedupBy_sublist (k : α → β) [DecidableEq β] (l : List α) :
    List.Sublist (dedupBy k l) l :=
  dedupByAux_sublist k [] l

theorem mem_dedupByAux_not_seen (k : α → β) [DecidableEq β] {seen : List β} {l : List α}
    {x : α} (h : x ∈ dedupByAux k seen l) : k x ∉ seen := by
  induction l generalizing seen with
  | nil => simp [dedupByAux] at h
  | cons a as ih =>
    simp only [dedupByAux] at h
    split at h
    · exact ih h
    · rcases List.mem_cons.mp h with rfl | h'
      · assumption
      · have := ih h'
        intro hc
        exact this (List.mem_cons_of_mem _ hc)

theorem pairwise_dedupByAux (k : α → β) [DecidableEq β] (seen : List β) (l : List α) :
    (dedupByAux k seen l).Pairwise (fun a b => k a ≠ k b) := by
  induction l generalizing seen with
  | nil => simp [dedupByAux]
  | cons a as ih =>
    simp only [dedupByAux]
    split
    · exact ih seen
    · refine List.pairwise_cons.mpr ⟨?_, ih (k a :: seen)⟩
      intro b hb
      have := mem_dedupByAux_not_seen k hb
      simp only [List.mem_cons] at this
      intro hc
      exact this (Or.inl hc.symm)

theorem pairwise_dedupBy (k : α → β) [DecidableEq β] (l : List α) :
    (dedupBy k l).Pairwise (fun a b => k a ≠ k b) :=
  pairwise_dedupByAux k [] l

/-! ### Date-utility characterizations -/

theorem daysBeforeMonth_one : ∀ b : Bool, daysBeforeMonth b 1 = 0 := by decide

theorem mkDatetime_some {y m d : Nat} {dt : Date} (h : mkDatetime y m d = some dt) :
    dt = ⟨y, m, d⟩ ∧ dt.valid = true := by
  unfold mkDatetime at h
  split at h
  · cases h
    exact ⟨rfl, by assumption⟩
  · cases h

theorem dateOfYearDay_eq (y ddd : Nat) :
    dateOfYearDay y ddd =
      ⟨y, monthOfYearDay (isLeap y) ddd,
        ddd - daysBeforeMonth (isLeap y) (monthOfYearDay (isLeap y) ddd)⟩ := rfl

theorem julian_to_date_ok {year ddd : Nat} {dt : Date}
    (h : julian_to_date year ddd = .ok dt) :
    dt.valid = true ∧ dt.y = year ∧ dayOfYear dt = ddd
      ∧ dt.toOrdinal = (Date.mk year 1 1).toOrdinal + (ddd - 1)
      ∧ 1 ≤ ddd ∧ ddd ≤ daysInYear year ∧ 1 ≤ year ∧ year ≤ 9999 := by
  unfold julian_to_date at h
  split at h
  · cases h
  · split at h
    · cases h
    · rename_i hdd hyy
      rw [not_not] at hdd hyy
      rw [Except.ok.injEq] at h
      subst h
      have hlt : ddd < 367 := by
        have := hdd.2
        unfold daysInYear at this
        split at this <;> omega
      have hdd2 : ddd ≤ (if isLeap year then 366 else 365) := hdd.2
      obtain ⟨hm1, hm12, hbefore, hlen⟩ :=
        monthOf_correct (isLeap year) ddd hlt ⟨hdd.1, hdd2⟩
      rw [dateOfYearDay_eq]
      refine ⟨?_, rfl, ?_, ?_, hdd.1, hdd.2, hyy.1, hyy.2⟩
      · rw [valid_iff]
        dsimp only
        exact ⟨hyy.1, hyy.2, hm1, hm12, by omega, hlen⟩
      · unfold dayOfYear
        dsimp only
        omega
      · unfold Date.toOrdinal
        dsimp only
        rw [daysBeforeMonth_one]
        omega

theorem julian_to_date_err {year ddd : Nat}
    (h : ¬(1 ≤ ddd ∧ ddd ≤ daysInYear year)) :
    julian_to_date year ddd = .error .invalidDayOfYear := by
  unfold julian_to_date
  rw [if_pos h]

theorem add_years3 {d e : Date} (h : add_years d 3 = .ok e) :
    (e = ⟨d.y + 3, d.m, d.d⟩ ∧ e.valid = true)
      ∨ (d.m = 2 ∧ d.d = 29 ∧ e = ⟨d.y + 3, 2, 28⟩ ∧ e.valid = true) := by
  have htn : ((d.y : Int) + 3).toNat = d.y + 3 := by omega
  simp only [add_years] at h
  split at h
  · rename_i hc
    rw [Except.ok.injEq] at h
    subst h
    left
    rw [htn] at hc
    rw [htn]
    exact ⟨rfl, hc.2⟩
  · split at h
    · split at h
      · rename_i hfeb hc
        rw [Except.ok.injEq] at h
        subst h
        right
        rw [htn] at hc
        rw [htn]
        exact ⟨hfeb.1, hfeb.2, rfl, hc.2⟩
      · cases h
    · cases h

theorem is_valid_expiry_iff (now e : Date) :
    is_valid_expiry now e = true ↔
      ((Date.mk (now.y + 3) now.m now.d).valid = true
        ∧ (Date.mk 2015 1 1).toOrdinal ≤ e.toOrdinal
        ∧ e.toOrdinal ≤ (Date.mk (now.y + 3) now.m now.d).toOrdinal) := by
  simp [is_valid_expiry, Bool.and_eq_true, decide_eq_true_eq, and_assoc]

/-- The central policy-window consequence: a production date whose 3-year
expiry passes `is_valid_expiry` is itself at most (in fact well within) 90
days after `now`. -/
theorem prod_ordinal_le {now prod e : Date} (hn : now.valid = true) (hp : prod.valid = true)
    (hadd : add_years prod 3 = .ok e) (hval : is_valid_expiry now e = true) :
    prod.toOrdinal ≤ now.toOrdinal + 90 := by
  obtain ⟨hmaxv, h2015, hle⟩ := (is_valid_expiry_iff now e).mp hval
  rcases add_years3 hadd with ⟨he, hev⟩ | ⟨hm2, hd29, he, hev⟩
  · by_cases hlex : lexLt now prod
    · exfalso
      have hwrap : lexLt (⟨now.y + 3, now.m, now.d⟩ : Date) (⟨prod.y + 3, prod.m, prod.d⟩ : Date) :=
        lexLt_shift hlex
      have hlt := toOrdinal_lt_of_lexLt hmaxv (he ▸ hev) hwrap
      rw [he] at hle
      omega
    · have := toOrdinal_le_of_not_lt hp hn hlex
      omega
  · by_cases hlex : lexLt now prod
    · rcases hlex with hy | ⟨hy, hm | ⟨hm, hd⟩⟩
      · exfalso
        have hwrap : lexLt (⟨now.y + 3, now.m, now.d⟩ : Date) e := by
          rw [he]
          simp only [lexLt]
          omega
        have hlt := toOrdinal_lt_of_lexLt hmaxv hev hwrap
        omega
      · exfalso
        have hwrap : lexLt (⟨now.y + 3, now.m, now.d⟩ : Date) e := by
          rw [he]
          simp only [lexLt]
          omega
        have hlt := toOrdinal_lt_of_lexLt hmaxv hev hwrap
        omega
      · have hpo : prod.toOrdinal = yearOffset prod.y + 31 + prod.d := by
          unfold Date.toOrdinal
          rw [hm2, daysBeforeMonth_two]
        have hnm : now.m = 2 := hm.trans hm2
        have hno : now.toOrdinal = yearOffset now.y + 31 + now.d := by
          unfold Date.toOrdinal
          rw [hnm, daysBeforeMonth_two]
        have h1 : 1 ≤ now.d := ((valid_iff now).mp hn).2.2.2.2.1
        rw [hy] at hno
        omega
    · have := toOrdinal_le_of_not_lt hp hn hlex
      omega

/-! ### Candidate-resolver lemmas -/

theorem mem_layerA {g : Prop} [Decidable g] {y m dd maxOrd : Nat} {c : List Date} {d : Date}
    (h : d ∈ (if g then
        match mkDatetime y m dd with
        | some dt => if dt.toOrdinal ≤ maxOrd then c ++ [dt] else c
        | none => c
      else c)) :
    d ∈ c ∨ (d.valid = true ∧ d.y = y ∧ d.toOrdinal ≤ maxOrd) := by
  split at h
  · cases hmk : mkDatetime y m dd with
    | none => rw [hmk] at h; exact Or.inl h
    | some dt =>
      rw [hmk] at h
      dsimp only at h
      split at h
      · rename_i hord
        rcases List.mem_append.mp h with h' | h'
        · exact Or.inl h'
        · right
          have hd : d = dt := by simpa using h'
          obtain ⟨hdt, hv⟩ := mkDatetime_some hmk
          subst hd
          exact ⟨hv, by rw [hdt], hord⟩
      · exact Or.inl h
  · exact Or.inl h

theorem mem_layerB {g : Prop} [Decidable g] {y m dd maxOrd : Nat} {c : List Date} {d : Date}
    (h : d ∈ (if g then
        match mkDatetime y m dd with
        | some dt => if dt ∉ c ∧ dt.toOrdinal ≤ maxOrd then c ++ [dt] else c
        | none => c
      else c)) :
    d ∈ c ∨ (d.valid = true ∧ d.y = y ∧ d.toOrdinal ≤ maxOrd) := by
  split at h
  · cases hmk : mkDatetime y m dd with
    | none => rw [hmk] at h; exact Or.inl h
    | some dt =>
      rw [hmk] at h
      dsimp only at h
      split at h
      · rename_i hcond
        rcases List.mem_append.mp h with h' | h'
        · exact Or.inl h'
        · right
          have hd : d = dt := by simpa using h'
          obtain ⟨hdt, hv⟩ := mkDatetime_some hmk
          subst hd
          exact ⟨hv, by rw [hdt], hcond.2⟩
      · exact Or.inl h
  · exact Or.inl h

theorem mem_dateReadingsStep12 {maxOrd p1 p2 : Nat} {cands : List Date} {year_val : Nat}
    {d : Date} (h : d ∈ dateReadingsStep12 maxOrd p1 p2 cands year_val) :
    d ∈ cands ∨ (d.valid = true ∧ d.y = year_val ∧ d.toOrdinal ≤ maxOrd) := by
  simp only [dateReadingsStep12] at h
  rcases mem_layerB h with h1 | hg
  · exact mem_layerA h1
  · exact Or.inr hg

theorem mem_dateReadingsStep3 {maxOrd p1 : Nat} {cands : List Date} {year_val : Nat}
    {d : Date} (h : d ∈ dateReadingsStep3 maxOrd p1 cands year_val) :
    d ∈ cands ∨ (d.valid = true ∧ d.y = year_val ∧ d.toOrdinal ≤ maxOrd) := by
  unfold dateReadingsStep3 at h
  cases hmk : mkDatetime year_val p1 (daysInMonth year_val p1) with
  | none => rw [hmk] at h; exact Or.inl h
  | some dt =>
    rw [hmk] at h
    dsimp only at h
    split at h
    · rename_i hcond
      rcases List.mem_append.mp h with h' | h'
      · exact Or.inl h'
      · right
        have hd : d = dt := by simpa using h'
        obtain ⟨hdt, hv⟩ := mkDatetime_some hmk
        subst hd
        exact ⟨hv, by rw [hdt], hcond.2⟩
    · exact Or.inl h

theorem mem_dateReadingsStep {maxOrd p1 p2 : Nat} {cands : List Date} {year_val : Nat}
    {d : Date} (h : d ∈ dateReadingsStep maxOrd p1 p2 cands year_val) :
    d ∈ cands ∨ (d.valid = true ∧ d.y = year_val ∧ d.toOrdinal ≤ maxOrd) := by
  simp only [dateReadingsStep] at h
  split at h
  · rcases mem_dateReadingsStep3 h with h1 | hg
    · exact mem_dateReadingsStep12 h1
    · exact Or.inr hg
  · exact mem_dateReadingsStep12 h

theorem mem_foldl_step (f : List Date → Nat → List Date) (Q : Date → Nat → Prop)
    (hf : ∀ c yv d, d ∈ f c yv → d ∈ c ∨ Q d yv) :
    ∀ (V : List Nat) (acc : List Date) (d : Date), d ∈ V.foldl f acc →
      d ∈ acc ∨ ∃ yv ∈ V, Q d yv := by
  intro V
  induction V with
  | nil => intro acc d h; exact Or.inl h
  | cons y ys ih =>
    intro acc d h
    rw [List.foldl_cons] at h
    rcases ih (f acc y) d h with hacc | ⟨yv, hyv, hq⟩
    · rcases hf acc y d hacc with h1 | hq
      · exact Or.inl h1
      · exact Or.inr ⟨y, List.mem_cons_self y ys, hq⟩
    · exact Or.inr ⟨yv, List.mem_cons_of_mem y hyv, hq⟩

theorem filter_years {cy yy : Nat} (h : yy ≤ 99) :
    ((if yy > cy % 100 + 5 then [1900 + yy] else []) ++ [2000 + yy]).filter
        (fun yv => 2015 ≤ yv && yv ≤ cy + 1) =
      if 2015 ≤ 2000 + yy ∧ 2000 + yy ≤ cy + 1 then [2000 + yy] else [] := by
  have h19 : (2015 ≤ 1900 + yy && 1900 + yy ≤ cy + 1) = false := by
    simp only [Bool.and_eq_false_iff, decide_eq_false_iff_not, not_le]
    omega
  by_cases h20 : 2015 ≤ 2000 + yy ∧ 2000 + yy ≤ cy + 1
  · have hd : (2015 ≤ 2000 + yy && 2000 + yy ≤ cy + 1) = true := by
      simp only [Bool.and_eq_true, decide_eq_true_eq]
      exact h20
    by_cases hc : yy > cy % 100 + 5 <;>
      simp [hc, h20, List.filter_append, List.filter_cons, h19, hd]
  · have hd : (2015 ≤ 2000 + yy && 2000 + yy ≤ cy + 1) = false := by
      simp only [Bool.and_eq_false_iff, decide_eq_false_iff_not, not_le]
      omega
    by_cases hc : yy > cy % 100 + 5 <;>
      simp [hc, h20, List.filter_append, List.filter_cons, h19, hd]

/-- Dates returned by `parse_date_variants` are constructible, within 90
days of `now`, and carry a year that survived the `[2015, current_year+1]`
filter (for a two-digit `yy`, necessarily `2000 + yy`). -/
theorem mem_parse_date_variants {now : Date} {p1 p2 yy : Nat} {d : Date}
    (h : d ∈ BCR.parse_date_variants now p1 p2 yy) :
    d.valid = true ∧ d.toOrdinal ≤ now.toOrdinal + 90
      ∧ 2015 ≤ d.y ∧ d.y ≤ now.y + 1 ∧ (yy ≤ 99 → d.y = 2000 + yy) := by
  simp only [BCR.parse_date_variants] at h
  have h1 := (dedupBy_sublist _ _).subset h
  have h2 := mem_sortAsc.mp h1
  have h3 := mem_foldl_step (dateReadingsStep (now.toOrdinal + 90) p1 p2)
    (fun d yv => d.valid = true ∧ d.y = yv ∧ d.toOrdinal ≤ now.toOrdinal + 90)
    (fun c yv d hd => mem_dateReadingsStep hd) _ _ _ h2
  rcases h3 with habs | ⟨yv, hyv, hval, hy, hord⟩
  · simp at habs
  · have hmem := List.mem_filter.mp hyv
    have hrange : 2015 ≤ yv ∧ yv ≤ now.y + 1 := by
      have := hmem.2
      simp only [Bool.and_eq_true, decide_eq_true_eq] at this
      exact this
    refine ⟨hval, hord, by omega, by omega, ?_⟩
    intro h99
    rw [if_pos h99] at hmem
    rcases List.mem_append.mp hmem.1 with hm1 | hm2
    · exfalso
      split at hm1
      · simp only [List.mem_singleton] at hm1
        omega
      · simp at hm1
    · simp only [List.mem_singleton] at hm2
      omega

/-- Every interpretation emitted by `_process_parsed_dates` keeps its
candidate production date, its `add_years` expiry, the expiry-window check,
and the given confidence. -/
theorem process_good {now : Date} {suffix : String} {conf : Nat} {fmt : String}
    {cands : List Date} {out : List Interp}
    (h : process_parsed_dates now suffix conf fmt cands = .ok out) :
    ∀ i ∈ out, i.production_date ∈ cands
      ∧ add_years i.production_date 3 = .ok i.expiry_date
      ∧ is_valid_expiry now i.expiry_date = true
      ∧ i.confidence = conf := by
  induction cands generalizing out with
  | nil =>
    unfold process_parsed_dates at h
    cases h
    intro i hi
    cases hi
  | cons p rest ih =>
    unfold process_parsed_dates at h
    cases hadd : add_years p 3 with
    | error e => rw [hadd] at h; cases h
    | ok exp =>
      rw [hadd] at h
      cases hrest : process_parsed_dates now suffix conf fmt rest with
      | error e => rw [hrest] at h; cases h
      | ok tail =>
        rw [hrest] at h
        dsimp only at h
        split at h
        · rename_i hval
          cases h
          intro i hi
          rcases List.mem_cons.mp hi with rfl | hi'
          · exact ⟨List.mem_cons_self _ _, hadd, hval, rfl⟩
          · have := ih hrest i hi'
            exact ⟨List.mem_cons_of_mem _ this.1, this.2.1, this.2.2.1, this.2.2.2⟩
        · cases h
          intro i hi
          have := ih hrest i hi
          exact ⟨List.mem_cons_of_mem _ this.1, this.2.1, this.2.2.1, this.2.2.2⟩

/-- Completeness of `_process_parsed_dates`: every candidate whose expiry
passes the window check appears among the produced interpretations. -/
theorem process_complete {now : Date} {suffix : String} {conf : Nat} {fmt : String}
    {cands : List Date} {out : List Interp}
    (h : process_parsed_dates now suffix conf fmt cands = .ok out)
    {d e : Date} (hd : d ∈ cands) (hadd : add_years d 3 = .ok e)
    (hval : is_valid_expiry now e = true) :
    ∃ i ∈ out, i.production_date = d := by
  induction cands generalizing out with
  | nil => cases hd
  | cons p rest ih =>
    unfold process_parsed_dates at h
    cases haddp : add_years p 3 with
    | error er => rw [haddp] at h; cases h
    | ok exp =>
      rw [haddp] at h
      cases hrest : process_parsed_dates now suffix conf fmt rest with
      | error er => rw [hrest] at h; cases h
      | ok tail =>
        rw [hrest] at h
        dsimp only at h
        rcases List.mem_cons.mp hd with rfl | hd'
        · have hexp : exp = e := by
            rw [hadd] at haddp
            cases haddp
            rfl
          subst hexp
          rw [if_pos hval] at h
          cases h
          exact ⟨_, List.mem_cons_self _ _, rfl⟩
        · obtain ⟨i, hi, hip⟩ := ih hrest hd'
          split at h <;> cases h
          · exact ⟨i, List.mem_cons_of_mem _ hi, hip⟩
          · exact ⟨i, hi, hip⟩

/-- `_process_parsed_dates` cannot fail when `add_years` succeeds on every
candidate. -/
theorem process_isOk {now : Date} {suffix : String} {conf : Nat} {fmt : String}
    {cands : List Date} (h : ∀ d ∈ cands, ∃ e, add_years d 3 = .ok e) :
    ∃ out, process_parsed_dates now suffix conf fmt cands = .ok out := by
  induction cands with
  | nil => exact ⟨[], rfl⟩
  | cons p rest ih =>
    obtain ⟨e, he⟩ := h p (List.mem_cons_self _ _)
    obtain ⟨out, hout⟩ := ih (fun d hd => h d (List.mem_cons_of_mem _ hd))
    unfold process_parsed_dates
    rw [he, hout]
    dsimp only
    split
    · exact ⟨_, rfl⟩
    · exact ⟨_, rfl⟩

theorem monthLen_two_ge (b : Bool) : 28 ≤ monthLen b 2 := by cases b <;> decide

theorem monthLen_two_le (b : Bool) : monthLen b 2 ≤ 29 := by cases b <;> decide

/-- `add_years(date, 3)` always succeeds for a valid date whose target year
stays within Python's range; it keeps the month, and keeps the day except
for the Feb-29 collapse. -/
theorem add_years3_total {d : Date} (hv : d.valid = true) (hy : d.y + 3 ≤ 9999) :
    ∃ e, add_years d 3 = .ok e ∧ e.y = d.y + 3 ∧ e.m = d.m := by
  obtain ⟨h1, h2, h3, h4, h5, h6⟩ := (valid_iff d).mp hv
  have htn : ((d.y : Int) + 3).toNat = d.y + 3 := by omega
  have h6' : d.d ≤ monthLen (isLeap d.y) d.m := h6
  by_cases hfeb : d.m = 2 ∧ d.d = 29 ∧ isLeap (d.y + 3) = false
  · obtain ⟨hfm, hfd, hfl⟩ := hfeb
    refine ⟨⟨d.y + 3, 2, 28⟩, ?_, rfl, hfm.symm⟩
    simp only [add_years, htn]
    have hnv : ¬(0 ≤ (d.y : Int) + 3 ∧ (Date.mk (d.y + 3) d.m d.d).valid = true) := by
      intro hcon
      have hvv := (valid_iff _).mp hcon.2
      dsimp only at hvv
      have hdm : d.d ≤ daysInMonth (d.y + 3) d.m := hvv.2.2.2.2.2
      unfold daysInMonth at hdm
      rw [hfm, hfl] at hdm
      have h28 : monthLen false 2 = 28 := rfl
      omega
    rw [if_neg hnv, if_pos ⟨hfm, hfd⟩]
    have hok : 0 ≤ (d.y : Int) + 3 ∧ (Date.mk (d.y + 3) 2 28).valid = true := by
      refine ⟨by omega, ?_⟩
      rw [valid_iff]
      dsimp only
      refine ⟨by omega, hy, by omega, by omega, by omega, ?_⟩
      unfold daysInMonth
      exact monthLen_two_ge _
    rw [if_pos hok]
  · refine ⟨⟨d.y + 3, d.m, d.d⟩, ?_, rfl, rfl⟩
    simp only [add_years, htn]
    have hok : 0 ≤ (d.y : Int) + 3 ∧ (Date.mk (d.y + 3) d.m d.d).valid = true := by
      refine ⟨by omega, ?_⟩
      rw [valid_iff]
      dsimp only
      refine ⟨by omega, hy, h3, h4, h5, ?_⟩
      unfold daysInMonth
      by_cases hm2 : d.m = 2
      · rw [hm2]
        rw [hm2] at h6'
        by_cases hlp : isLeap (d.y + 3) = true
        · rw [hlp]
          have hle := monthLen_two_le (isLeap d.y)
          have h29 : monthLen true 2 = 29 := rfl
          omega
        · have hlp' : isLeap (d.y + 3) = false := by
            cases hx : isLeap (d.y + 3)
            · rfl
            · exact absurd hx hlp
          rw [hlp']
          have hd29 : d.d ≠ 29 := fun hc => hfeb ⟨hm2, hc, hlp'⟩
          have hle := monthLen_two_le (isLeap d.y)
          have h28 : monthLen false 2 = 28 := rfl
          omega
      · rw [monthLen_eq_of_ne_two (isLeap (d.y + 3)) (isLeap d.y) d.m (by omega) hm2]
        exact h6'
    rw [if_pos hok]

/-! ### Per-decoder guarantees

Every decoder only emits interpretations whose production date is a
constructible date, whose expiry is the production date's `add_years` image,
and whose expiry passed `is_valid_expiry` — including decoders, such as
`validate_yddd_bb`, that have no explicit 90-day check of their own. -/

theorem sortAsc_nil (k : α → Nat) : sortAsc k [] = [] := rfl

theorem sortAsc_singleton (k : α → Nat) (x : α) : sortAsc k [x] = [x] := rfl

theorem dedupBy_nil (k : α → β) [DecidableEq β] : dedupBy k [] = [] := rfl

theorem dedupBy_singleton (k : α → β) [DecidableEq β] (x : α) : dedupBy k [x] = [x] := by
  simp [dedupBy, dedupByAux]

theorem good_yddd {now : Date} {code : List Char} {i : Interp}
    (h : i ∈ (BCR.validate_yddd_bb now code).2.2) : GoodInterp now i := by
  simp only [BCR.validate_yddd_bb] at h
  repeat' split at h
  all_goals try simp at h
  all_goals
    rename_i x1 prod_date hjul x0 expiry_date hadd hexp
    subst h
    exact ⟨(julian_to_date_ok hjul).1, hadd, hexp⟩

theorem good_p3 {now : Date} {code : List Char} {i : Interp}
    (h : i ∈ (BCR.validate_historical_pattern_3 now code).2.2) : GoodInterp now i := by
  simp only [BCR.validate_historical_pattern_3] at h
  repeat' split at h
  all_goals try simp at h
  all_goals
    rename_i x1 prod_date hjul x0 expiry_date hadd hexp
    subst h
    exact ⟨(julian_to_date_ok hjul).1, hadd, hexp⟩

theorem good_prefix_yymm {now : Date} {code : List Char} {i : Interp}
    (h : i ∈ (BCR.validate_prefix_yymm_suffix now code).2.2) : GoodInterp now i := by
  simp only [BCR.validate_prefix_yymm_suffix] at h
  repeat' split at h
  all_goals try simp at h
  all_goals
    rename_i x1 prod_date hmk x0 expiry_date hadd hexp
    subst h
    exact ⟨(mkDatetime_some hmk).2, hadd, hexp⟩

theorem good_p1 {now : Date} {code : List Char} {i : Interp}
    (h : i ∈ (BCR.validate_historical_pattern_1 now code).2.2) : GoodInterp now i := by
  simp only [BCR.validate_historical_pattern_1] at h
  split at h
  · simp at h
  · split at h
    · simp at h
    · rename_i results hproc
      split at h
      · dsimp only at h
        obtain ⟨j, hj, hij⟩ := List.mem_map.mp h
        have hg := process_good hproc j hj
        have hvalid := (mem_parse_date_variants hg.1).1
        subst hij
        refine ⟨?_, ?_, ?_⟩
        · split
          · exact hvalid
          · split
            · exact hvalid
            · exact hvalid
        · split
          · exact hg.2.1
          · split
            · exact hg.2.1
            · exact hg.2.1
        · split
          · exact hg.2.2.1
          · split
            · exact hg.2.2.1
            · exact hg.2.2.1
      · simp at h

theorem good_p2 {now : Date} {code : List Char} {i : Interp}
    (h : i ∈ (BCR.validate_historical_pattern_2 now code).2.2) : GoodInterp now i := by
  simp only [BCR.validate_historical_pattern_2] at h
  split at h
  · simp at h
  · split at h
    · simp at h
    · rename_i results hproc
      split at h
      · dsimp only at h
        obtain ⟨j, hj, hij⟩ := List.mem_map.mp h
        have hg := process_good hproc j hj
        have hvalid := (mem_parse_date_variants hg.1).1
        subst hij
        refine ⟨?_, ?_, ?_⟩
        · split
          · exact hvalid
          · split
            · exact hvalid
            · exact hvalid
        · split
          · exact hg.2.1
          · split
            · exact hg.2.1
            · exact hg.2.1
        · split
          · exact hg.2.2.1
          · split
            · exact hg.2.2.1
            · exact hg.2.2.1
      · simp at h

theorem good_p4 {now : Date} {code : List Char} {i : Interp}
    (h : i ∈ (BCR.validate_historical_pattern_4 now code).2.2) : GoodInterp now i := by
  simp only [BCR.validate_historical_pattern_4] at h
  split at h
  · simp at h
  · split at h
    · repeat' split at h
      all_goals try simp at h
      all_goals
        rename_i x1 prod_date hjul x0 expiry_date hadd hexp
        subst h
        exact ⟨(julian_to_date_ok hjul).1, hadd, hexp⟩
    · split at h
      · split at h
        · simp at h
        · rename_i processed hproc
          split at h
          · dsimp only at h
            obtain ⟨j, hj, hij⟩ := List.mem_map.mp h
            have hg := process_good hproc j hj
            have hvalid := (mem_parse_date_variants hg.1).1
            subst hij
            exact ⟨hvalid, hg.2.1, hg.2.2.1⟩
          · simp at h
      · simp at h

theorem good_special {now : Date} {code : List Char} {i : Interp}
    (h : i ∈ (BCR.validate_special_pfx now code).2.2) : GoodInterp now i := by
  simp only [BCR.validate_special_pfx] at h
  repeat' split at h
  all_goals try simp [sortAsc_nil, sortAsc_singleton, dedupBy_nil, dedupBy_singleton] at h
  all_goals
    rename_i x1 prod_date hmk hord x0 expiry_date hadd hexp
    subst h
    exact ⟨(mkDatetime_some hmk).2, hadd, hexp⟩

theorem good_legacy_dddyybb {now : Date} {code : List Char} {i : Interp}
    (h : i ∈ BCR.legacy_dddyybb now code) : GoodInterp now i := by
  simp only [BCR.legacy_dddyybb] at h
  repeat' split at h
  all_goals try simp at h
  all_goals
    rename_i x1 prod_date hjul x0 expiry_date hadd hexp
    subst h
    exact ⟨(julian_to_date_ok hjul).1, hadd, hexp⟩

theorem good_legacy_yyddd {now : Date} {code : List Char} {results1 : List Interp} {i : Interp}
    (hres : ∀ j ∈ results1, GoodInterp now j)
    (h : i ∈ BCR.legacy_yyddd now code results1) : GoodInterp now i := by
  simp only [BCR.legacy_yyddd] at h
  split at h
  · split at h
    · exact hres i h
    · split at h
      · split at h
        · exact hres i h
        · rename_i prod_date hjul
          split at h
          · exact hres i h
          · rename_i expiry_date hadd
            split at h
            · rename_i hexp
              split at h
              · split at h
                · rcases List.mem_append.mp h with h2 | h2
                  · exact hres i h2
                  · simp only [List.mem_singleton] at h2
                    subst h2
                    exact ⟨(julian_to_date_ok hjul).1, hadd, hexp⟩
                · exact hres i h
              · split at h
                · rcases List.mem_append.mp h with h2 | h2
                  · exact hres i h2
                  · simp only [List.mem_singleton] at h2
                    subst h2
                    exact ⟨(julian_to_date_ok hjul).1, hadd, hexp⟩
                · exact hres i h
            · exact hres i h
      · exact hres i h
  · exact hres i h

theorem good_legacy {now : Date} {code : List Char} {i : Interp}
    (h : i ∈ (BCR.validate_legacy_formats now code).2.2) : GoodInterp now i := by
  simp only [BCR.validate_legacy_formats] at h
  split at h
  · dsimp only at h
    exact good_legacy_yyddd (fun j hj => good_legacy_dddyybb hj) h
  · simp at h

/-! ### Orchestrator lemmas -/

theorem good_tagged {now : Date} {name : String} {r : Bool × String × List Interp} {i : Interp}
    (hr : ∀ j ∈ r.2.2, GoodInterp now j) (h : i ∈ tagged name r) : GoodInterp now i := by
  unfold tagged at h
  split at h
  · obtain ⟨j, hj, hij⟩ := List.mem_map.mp h
    subst hij
    exact hr j hj
  · cases h

theorem good_collect {now : Date} {cc : List Char} {i : Interp}
    (h : i ∈ BCR.collectInterps now cc) : GoodInterp now i := by
  unfold BCR.collectInterps at h
  simp only [List.mem_append] at h
  rcases h with ((((((h | h) | h) | h) | h) | h) | h) | h
  exacts [good_tagged (fun j hj => good_yddd hj) h,
    good_tagged (fun j hj => good_prefix_yymm hj) h,
    good_tagged (fun j hj => good_p3 hj) h,
    good_tagged (fun j hj => good_p1 hj) h,
    good_tagged (fun j hj => good_p4 hj) h,
    good_tagged (fun j hj => good_p2 hj) h,
    good_tagged (fun j hj => good_legacy hj) h,
    good_tagged (fun j hj => good_special hj) h]

/-- Every interpretation in the final list of `analyze_batch_code` comes
from the collected interpretations, and survived the YDDD-vs-DDDYY
collision filter. -/
theorem mem_analyze_final {now : Date} {code : List Char} {i : Interp}
    (h : i ∈ (BCR.analyze_batch_code now code).2.2) :
    i ∈ BCR.collectInterps now (BCR.cleaned_code code)
      ∧ ((BCR.collectInterps now (BCR.cleaned_code code)).any
            (fun a => a.format_type == "YDDD BB") = true →
         (BCR.collectInterps now (BCR.cleaned_code code)).any
            (fun a => a.format_type == "Julian DDDYY + Suffix"
              || a.format_type == "Julian DDDYY + Alpha Suffix"
              || a.format_type == "Legacy DDDYYBB (Julian)") = true →
         i.format_type ≠ "YDDD BB") := by
  simp only [BCR.analyze_batch_code] at h
  split at h
  · simp at h
  · split at h
    · split at h
      · split at h
        · simp at h
        · dsimp only at h
          have h1 := mem_sortDesc.mp h
          have h2 := (dedupBy_sublist _ _).subset h1
          have h3 := mem_sortDesc.mp h2
          have hf := List.mem_filter.mp h3
          refine ⟨hf.1, fun _ _ => ?_⟩
          simpa using hf.2
      · rename_i hncoll
        split at h
        · simp at h
        · dsimp only at h
          have h1 := mem_sortDesc.mp h
          have h2 := (dedupBy_sublist _ _).subset h1
          have h3 := mem_sortDesc.mp h2
          exact ⟨h3, fun hY hD => absurd ⟨hY, hD⟩ hncoll⟩
    · simp at h

/-! ### Claim theorems -/

theorem analyze_shape_bcr (now : Date) (code : List Char) :
    ((BCR.analyze_batch_code now code).1 = true ↔ (BCR.analyze_batch_code now code).2.2 ≠ [])
      ∧ ((BCR.analyze_batch_code now code).1 = false →
          (BCR.analyze_batch_code now code).2.1 ≠ "") := by
  simp only [BCR.analyze_batch_code]
  split
  · dsimp only
    exact ⟨by simp, fun _ => by decide⟩
  · split
    · split
      · split
        · dsimp only
          exact ⟨by simp, fun _ => by decide⟩
        · rename_i hne
          dsimp only
          refine ⟨⟨fun _ hcon => ?_, fun _ => rfl⟩, fun hfalse => Bool.noConfusion hfalse⟩
          have hl := congrArg List.length hcon
          rw [length_sortDesc] at hl
          exact hne (List.length_eq_zero.mp hl)
      · split
        · dsimp only
          exact ⟨by simp, fun _ => by decide⟩
        · rename_i hne
          dsimp only
          refine ⟨⟨fun _ hcon => ?_, fun _ => rfl⟩, fun hfalse => Bool.noConfusion hfalse⟩
          have hl := congrArg List.length hcon
          rw [length_sortDesc] at hl
          exact hne (List.length_eq_zero.mp hl)
    · dsimp only
      exact ⟨by simp, fun _ => by decide⟩

theorem analyze_shape_af (now : Date) (code : List Char) :
    ((AF.analyze_batch_code now code).1 = true ↔ (AF.analyze_batch_code now code).2.2 ≠ [])
      ∧ ((AF.analyze_batch_code now code).1 = false →
          (AF.analyze_batch_code now code).2.1 ≠ "") := by
  simp only [AF.analyze_batch_code]
  split
  · dsimp only
    refine ⟨by simp, fun _ => ?_⟩
    split <;> decide
  · split
    · split
      · split
        · dsimp only
          exact ⟨by simp, fun _ => by decide⟩
        · rename_i hne
          dsimp only
          refine ⟨⟨fun _ hcon => ?_, fun _ => rfl⟩, fun hfalse => Bool.noConfusion hfalse⟩
          have hl := congrArg List.length hcon
          rw [length_sortDesc] at hl
          exact hne (List.length_eq_zero.mp hl)
      · split
        · dsimp only
          exact ⟨by simp, fun _ => by decide⟩
        · rename_i hne
          dsimp only
          refine ⟨⟨fun _ hcon => ?_, fun _ => rfl⟩, fun hfalse => Bool.noConfusion hfalse⟩
          have hl := congrArg List.length hcon
          rw [length_sortDesc] at hl
          exact hne (List.length_eq_zero.mp hl)
    · dsimp only
      exact ⟨by simp, fun _ => by decide⟩

/-- C1: `analyze_batch_code` (both copies) always returns a result triple —
it is a total function of the embedded state, the per-decoder exception
handler having nothing left to absorb since every embedded decoder is total
— and absence of interpretations is reported via the success flag: the flag
is `true` exactly when the interpretation list is nonempty, and every
failure carries a nonempty message rather than an exception. -/
theorem analyze_total_and_failure_reporting :
    ∀ (now : Date) (code : List Char),
      ((BCR.analyze_batch_code now code).1 = true
          ↔ (BCR.analyze_batch_code now code).2.2 ≠ [])
        ∧ ((BCR.analyze_batch_code now code).1 = false
          → (BCR.analyze_batch_code now code).2.1 ≠ "")
        ∧ ((AF.analyze_batch_code now code).1 = true
          ↔ (AF.analyze_batch_code now code).2.2 ≠ [])
        ∧ ((AF.analyze_batch_code now code).1 = false
          → (AF.analyze_batch_code now code).2.1 ≠ "") :=
  fun now code =>
    ⟨(analyze_shape_bcr now code).1, (analyze_shape_bcr now code).2,
     (analyze_shape_af now code).1, (analyze_shape_af now code).2⟩

/-- C2: every interpretation returned by `analyze_batch_code` satisfies both
policy windows — its production date is at most `now + 90` days (even for
decoders with no explicit 90-day check, via the expiry upper bound), and its
expiry date lies within `[2015-01-01, (today.year+3, today.month,
today.day)]` inclusive. -/
theorem interpretation_policy_windows :
    ∀ (now : Date) (code : List Char), now.valid = true →
      ∀ i ∈ (BCR.analyze_batch_code now code).2.2,
        i.production_date.toOrdinal ≤ now.toOrdinal + 90
          ∧ (Date.mk 2015 1 1).toOrdinal ≤ i.expiry_date.toOrdinal
          ∧ i.expiry_date.toOrdinal ≤ (Date.mk (now.y + 3) now.m now.d).toOrdinal := by
  intro now code hn i hi
  obtain ⟨hv, hadd, hval⟩ := good_collect (mem_analyze_final hi).1
  obtain ⟨hmaxv, h2015, hle⟩ := (is_valid_expiry_iff now i.expiry_date).mp hval
  exact ⟨prod_ordinal_le hn hv hadd hval, h2015, hle⟩

/-- C7: whenever the collected interpretations contain both a `YDDD BB`
interpretation and one of the Julian-day-with-year-suffix family, the final
list contains no `YDDD BB` interpretation. -/
theorem yddd_collision_rule :
    ∀ (now : Date) (code : List Char),
      (∃ a ∈ BCR.collectInterps now (BCR.cleaned_code code), a.format_type = "YDDD BB") →
      (∃ b ∈ BCR.collectInterps now (BCR.cleaned_code code),
        b.format_type = "Julian DDDYY + Suffix" ∨ b.format_type = "Julian DDDYY + Alpha Suffix"
          ∨ b.format_type = "Legacy DDDYYBB (Julian)") →
      ∀ k ∈ (BCR.analyze_batch_code now code).2.2, k.format_type ≠ "YDDD BB" := by
  intro now code hY hD k hk
  apply (mem_analyze_final hk).2
  · rw [List.any_eq_true]
    obtain ⟨a, ha, hfa⟩ := hY
    exact ⟨a, ha, by simp [hfa]⟩
  · rw [List.any_eq_true]
    obtain ⟨b, hb, hfb⟩ := hD
    refine ⟨b, hb, ?_⟩
    simp only [Bool.or_eq_true, beq_iff_eq]
    rcases hfb with h1 | h1 | h1
    exacts [Or.inl (Or.inl h1), Or.inl (Or.inr h1), Or.inr h1]


theorem interpretation_policy_windows_witness :
    (Date.mk 2026 10 12).valid = true
      ∧ ∀ i ∈ (BCR.analyze_batch_code ⟨2026,10,12⟩ ['5','0','0','9','0','3']).2.2,
        i.production_date.toOrdinal ≤ (Date.mk 2026 10 12).toOrdinal + 90
          ∧ (Date.mk 2015 1 1).toOrdinal ≤ i.expiry_date.toOrdinal
          ∧ i.expiry_date.toOrdinal ≤
              (Date.mk ((Date.mk 2026 10 12).y + 3) (Date.mk 2026 10 12).m
                (Date.mk 2026 10 12).d).toOrdinal :=
  ⟨by decide, interpretation_policy_windows ⟨2026,10,12⟩ ['5','0','0','9','0','3'] (by decide)⟩

theorem yddd_collision_rule_witness :
    (∃ a ∈ BCR.collectInterps ⟨2026,10,12⟩ (BCR.cleaned_code ['1','2','0','1','5','7']),
        a.format_type = "YDDD BB")
      ∧ (∃ b ∈ BCR.collectInterps ⟨2026,10,12⟩ (BCR.cleaned_code ['1','2','0','1','5','7']),
          b.format_type = "Julian DDDYY + Suffix" ∨ b.format_type = "Julian DDDYY + Alpha Suffix"
            ∨ b.format_type = "Legacy DDDYYBB (Julian)")
      ∧ ∀ k ∈ (BCR.analyze_batch_code ⟨2026,10,12⟩ ['1','2','0','1','5','7']).2.2,
          k.format_type ≠ "YDDD BB" :=
  ⟨by decide, by decide,
   yddd_collision_rule ⟨2026,10,12⟩ ['1','2','0','1','5','7'] (by decide) (by decide)⟩

/-- C8: for `day_of_year` in `[1, daysInYear year]` (and a year for which
January 1 is constructible), `julian_to_date` returns January 1 of that year
plus `day_of_year - 1` days, whose day-of-year position is `day_of_year`
again (the round trip); for `day_of_year` outside the range it fails with
the invalid-day-of-year error. -/
theorem julian_round_trip :
    ∀ (year ddd : Nat),
      (1 ≤ ddd ∧ ddd ≤ daysInYear year → 1 ≤ year ∧ year ≤ 9999 →
        ∃ dt, julian_to_date year ddd = .ok dt
          ∧ dt.valid = true
          ∧ dt.y = year
          ∧ dt.toOrdinal = (Date.mk year 1 1).toOrdinal + (ddd - 1)
          ∧ dayOfYear dt = ddd)
      ∧ (¬(1 ≤ ddd ∧ ddd ≤ daysInYear year) →
        julian_to_date year ddd = .error .invalidDayOfYear) := by
  intro year ddd
  constructor
  · intro hdd hyy
    have hok : julian_to_date year ddd = .ok (dateOfYearDay year ddd) := by
      unfold julian_to_date
      rw [if_neg (not_not_intro hdd), if_neg (not_not_intro hyy)]
    obtain ⟨hv, hy, hdoy, hord, _⟩ := julian_to_date_ok hok
    exact ⟨dateOfYearDay year ddd, hok, hv, hy, hord, hdoy⟩
  · exact julian_to_date_err

theorem julian_round_trip_witness :
    (1 ≤ 60 ∧ 60 ≤ daysInYear 2024) ∧ (1 ≤ 2024 ∧ 2024 ≤ 9999)
      ∧ (∃ dt, julian_to_date 2024 60 = .ok dt ∧ dt.valid = true ∧ dt.y = 2024
          ∧ dt.toOrdinal = (Date.mk 2024 1 1).toOrdinal + (60 - 1) ∧ dayOfYear dt = 60)
      ∧ julian_to_date 2024 400 = .error .invalidDayOfYear :=
  ⟨by decide, by decide,
   (julian_round_trip 2024 60).1 (by decide) (by decide),
   (julian_round_trip 2024 400).2 (by decide)⟩

/-- C9: for a valid date `d` and any integer `n` whose target year stays in
`[1, 9999]`, `add_years` replaces the year and keeps the month and day,
except that February 29 collapses to February 28 of a non-leap target year
without error; a target year outside the range makes the construction
failure propagate as an error. -/
theorem add_years_replaces_year :
    ∀ (d : Date) (n : Int), d.valid = true →
      ((1 ≤ (d.y : Int) + n ∧ (d.y : Int) + n ≤ 9999 →
          (¬(d.m = 2 ∧ d.d = 29 ∧ isLeap ((d.y : Int) + n).toNat = false) →
              add_years d n = .ok ⟨((d.y : Int) + n).toNat, d.m, d.d⟩)
            ∧ (d.m = 2 ∧ d.d = 29 ∧ isLeap ((d.y : Int) + n).toNat = false →
              add_years d n = .ok ⟨((d.y : Int) + n).toNat, 2, 28⟩))
        ∧ ((d.y : Int) + n < 1 ∨ 9999 < (d.y : Int) + n →
            add_years d n = .error .invalidDate)) := by
  intro d n hv
  obtain ⟨h1, h2, h3, h4, h5, h6⟩ := (valid_iff d).mp hv
  have h6' : d.d ≤ monthLen (isLeap d.y) d.m := h6
  constructor
  · rintro ⟨hg1, hg9⟩
    constructor
    · intro hnot
      simp only [add_years]
      have hok : 0 ≤ (d.y : Int) + n
          ∧ (Date.mk ((d.y : Int) + n).toNat d.m d.d).valid = true := by
        refine ⟨by omega, ?_⟩
        rw [valid_iff]
        dsimp only
        refine ⟨by omega, by omega, h3, h4, h5, ?_⟩
        unfold daysInMonth
        by_cases hm2 : d.m = 2
        · rw [hm2]
          rw [hm2] at h6'
          by_cases hlp : isLeap ((d.y : Int) + n).toNat = true
          · rw [hlp]
            have hle := monthLen_two_le (isLeap d.y)
            have h29 : monthLen true 2 = 29 := rfl
            omega
          · have hlp' : isLeap ((d.y : Int) + n).toNat = false := by
              cases hx : isLeap ((d.y : Int) + n).toNat
              · rfl
              · exact absurd hx hlp
            rw [hlp']
            have hd29 : d.d ≠ 29 := fun hc => hnot ⟨hm2, hc, hlp'⟩
            have hle := monthLen_two_le (isLeap d.y)
            have h28 : monthLen false 2 = 28 := rfl
            omega
        · rw [monthLen_eq_of_ne_two (isLeap ((d.y : Int) + n).toNat) (isLeap d.y) d.m
            (by omega) hm2]
          exact h6'
      rw [if_pos hok]
    · rintro ⟨hfm, hfd, hfl⟩
      simp only [add_years]
      have hnv : ¬(0 ≤ (d.y : Int) + n
          ∧ (Date.mk ((d.y : Int) + n).toNat d.m d.d).valid = true) := by
        rintro ⟨hpos, hcon⟩
        have hvv := (valid_iff _).mp hcon
        dsimp only at hvv
        have hdm : d.d ≤ daysInMonth ((d.y : Int) + n).toNat d.m := hvv.2.2.2.2.2
        unfold daysInMonth at hdm
        rw [hfm, hfl] at hdm
        have h28 : monthLen false 2 = 28 := rfl
        omega
      rw [if_neg hnv, if_pos ⟨hfm, hfd⟩]
      have hok : 0 ≤ (d.y : Int) + n
          ∧ (Date.mk ((d.y : Int) + n).toNat 2 28).valid = true := by
        refine ⟨by omega, ?_⟩
        rw [valid_iff]
        dsimp only
        refine ⟨by omega, by omega, by omega, by omega, by omega, ?_⟩
        unfold daysInMonth
        exact monthLen_two_ge _
      rw [if_pos hok]
  · intro hout
    simp only [add_years]
    have hnv1 : ¬(0 ≤ (d.y : Int) + n
        ∧ (Date.mk ((d.y : Int) + n).toNat d.m d.d).valid = true) := by
      rintro ⟨hpos, hcon⟩
      have hvv := (valid_iff _).mp hcon
      dsimp only at hvv
      omega
    rw [if_neg hnv1]
    split
    · have hnv2 : ¬(0 ≤ (d.y : Int) + n
          ∧ (Date.mk ((d.y : Int) + n).toNat 2 28).valid = true) := by
        rintro ⟨hpos, hcon⟩
        have hvv := (valid_iff _).mp hcon
        dsimp only at hvv
        omega
      rw [if_neg hnv2]
    · rfl

theorem add_years_replaces_year_witness :
    (Date.mk 2020 2 29).valid = true
      ∧ add_years ⟨2020, 2, 29⟩ 1 = .ok ⟨2021, 2, 28⟩
      ∧ add_years ⟨2020, 2, 29⟩ 4 = .ok ⟨2024, 2, 29⟩
      ∧ add_years ⟨2020, 2, 29⟩ 9000 = .error .invalidDate :=
  ⟨by decide,
   ((add_years_replaces_year ⟨2020, 2, 29⟩ 1 (by decide)).1
      ⟨by decide, by decide⟩).2 ⟨rfl, rfl, by decide⟩,
   ((add_years_replaces_year ⟨2020, 2, 29⟩ 4 (by decide)).1
      ⟨by decide, by decide⟩).1 (by decide),
   (add_years_replaces_year ⟨2020, 2, 29⟩ 9000 (by decide)).2 (Or.inr (by decide))⟩

/-! ### `parse_date_variants` resolver facts -/

/-- The `[2015, current_year+1]` filter keeps at most one candidate year. -/
theorem filtered_years_cases (cy yy : Nat) :
    List.filter (fun yv => 2015 ≤ yv && yv ≤ cy + 1)
        (if yy ≤ 99 then
          (if yy > cy % 100 + 5 then [1900 + yy] else []) ++ [2000 + yy]
        else [yy]) = []
    ∨ ∃ y0, List.filter (fun yv => 2015 ≤ yv && yv ≤ cy + 1)
        (if yy ≤ 99 then
          (if yy > cy % 100 + 5 then [1900 + yy] else []) ++ [2000 + yy]
        else [yy]) = [y0] := by
  by_cases h99 : yy ≤ 99
  · rw [if_pos h99, filter_years h99]
    by_cases h : 2015 ≤ 2000 + yy ∧ 2000 + yy ≤ cy + 1
    · right
      exact ⟨2000 + yy, by rw [if_pos h]⟩
    · left
      rw [if_neg h]
  · rw [if_neg h99]
    cases hc : (2015 ≤ yy && yy ≤ cy + 1)
    · left
      simp [List.filter_cons, hc]
    · right
      exact ⟨yy, by simp [List.filter_cons, hc]⟩

theorem parse_date_variants_eq (now : Date) (p1 p2 yy : Nat) :
    BCR.parse_date_variants now p1 p2 yy
      = dedupBy (fun d => d) (sortAsc Date.toOrdinal
          (List.foldl (dateReadingsStep (now.toOrdinal + 90) p1 p2) []
            (List.filter (fun yv => 2015 ≤ yv && yv ≤ now.y + 1)
              (if yy ≤ 99 then
                (if yy > now.y % 100 + 5 then [1900 + yy] else []) ++ [2000 + yy]
              else [yy])))) := rfl

theorem parse_date_variants_eq_af (now : Date) (p1 p2 yy : Nat) :
    AF.parse_date_variants now p1 p2 yy
      = dedupBy (fun d => d) (sortAsc Date.toOrdinal
          (if 1 ≤ p1 ∧ p1 ≤ 12 then
            List.foldl (dateReadingsStep3 (now.toOrdinal + 90) p1)
              (List.foldl (dateReadingsStep12 (now.toOrdinal + 90) p1 p2) []
                (List.filter (fun yv => 2015 ≤ yv && yv ≤ now.y + 1)
                  (if yy ≤ 99 then
                    (if yy > now.y % 100 + 5 then [1900 + yy] else []) ++ [2000 + yy]
                  else [yy])))
              (List.filter (fun yv => 2015 ≤ yv && yv ≤ now.y + 1)
                (if yy ≤ 99 then
                  (if yy > now.y % 100 + 5 then [1900 + yy] else []) ++ [2000 + yy]
                else [yy]))
          else
            List.foldl (dateReadingsStep12 (now.toOrdinal + 90) p1 p2) []
              (List.filter (fun yv => 2015 ≤ yv && yv ≤ now.y + 1)
                (if yy ≤ 99 then
                  (if yy > now.y % 100 + 5 then [1900 + yy] else []) ++ [2000 + yy]
                else [yy])))) := rfl

/-- The two files' `parse_date_variants` agree: the only structural
difference is whether the month-end reading runs inside the single year
loop or in a second loop, and at most one year survives the filter. -/
theorem parse_date_variants_agree (now : Date) (p1 p2 yy : Nat) :
    AF.parse_date_variants now p1 p2 yy = BCR.parse_date_variants now p1 p2 yy := by
  rw [parse_date_variants_eq, parse_date_variants_eq_af]
  rcases filtered_years_cases now.y yy with hc | ⟨y0, hc⟩
  · rw [hc]
    simp only [List.foldl]
    rw [ite_self]
  · rw [hc]
    simp only [List.foldl, dateReadingsStep]

theorem length_dateReadingsStep12 (m p1 p2 : Nat) (cands : List Date) (y : Nat) :
    (dateReadingsStep12 m p1 p2 cands y).length ≤ cands.length + 2 := by
  simp only [dateReadingsStep12]
  repeat' split
  all_goals simp

theorem length_dateReadingsStep3 (m p1 : Nat) (cands : List Date) (y : Nat) :
    (dateReadingsStep3 m p1 cands y).length ≤ cands.length + 1 := by
  simp only [dateReadingsStep3]
  repeat' split
  all_goals simp

theorem length_dateReadingsStep (m p1 p2 : Nat) (cands : List Date) (y : Nat) :
    (dateReadingsStep m p1 p2 cands y).length ≤ cands.length + 3 := by
  simp only [dateReadingsStep]
  have h12 := length_dateReadingsStep12 m p1 p2 cands y
  split
  · have h3 := length_dateReadingsStep3 m p1 (dateReadingsStep12 m p1 p2 cands y) y
    omega
  · omega

theorem dedup_sort_length_le (cands : List Date) (n : Nat) (h : cands.length ≤ n) :
    (dedupBy (fun d => d) (sortAsc Date.toOrdinal cands)).length ≤ n := by
  have h1 := (dedupBy_sublist (fun d => d) (sortAsc Date.toOrdinal cands)).length_le
  have h2 : (sortAsc Date.toOrdinal cands).length = cands.length := length_sortAsc
  omega

theorem parse_length_le (now : Date) (p1 p2 yy : Nat) :
    (BCR.parse_date_variants now p1 p2 yy).length ≤ 3 := by
  rw [parse_date_variants_eq]
  apply dedup_sort_length_le
  rcases filtered_years_cases now.y yy with hc | ⟨y0, hc⟩
  · rw [hc]
    simp [List.foldl]
  · rw [hc]
    simp only [List.foldl]
    have := length_dateReadingsStep (now.toOrdinal + 90) p1 p2 [] y0
    simpa using this

theorem parse_pairwise_lt (now : Date) (p1 p2 yy : Nat)
    (hvalid : ∀ d ∈ BCR.parse_date_variants now p1 p2 yy, d.valid = true) :
    (BCR.parse_date_variants now p1 p2 yy).Pairwise
      (fun a b => a.toOrdinal < b.toOrdinal) := by
  rw [parse_date_variants_eq] at hvalid ⊢
  have hs := pairwise_sortAsc Date.toOrdinal
    (List.foldl (dateReadingsStep (now.toOrdinal + 90) p1 p2) []
      (List.filter (fun yv => 2015 ≤ yv && yv ≤ now.y + 1)
        (if yy ≤ 99 then
          (if yy > now.y % 100 + 5 then [1900 + yy] else []) ++ [2000 + yy]
        else [yy])))
  have hsub := dedupBy_sublist (fun d => d)
    (sortAsc Date.toOrdinal
      (List.foldl (dateReadingsStep (now.toOrdinal + 90) p1 p2) []
        (List.filter (fun yv => 2015 ≤ yv && yv ≤ now.y + 1)
          (if yy ≤ 99 then
            (if yy > now.y % 100 + 5 then [1900 + yy] else []) ++ [2000 + yy]
          else [yy]))))
  have h1 := List.Pairwise.sublist hsub hs
  have h2 := pairwise_dedupBy (fun d => d)
    (sortAsc Date.toOrdinal
      (List.foldl (dateReadingsStep (now.toOrdinal + 90) p1 p2) []
        (List.filter (fun yv => 2015 ≤ yv && yv ≤ now.y + 1)
          (if yy ≤ 99 then
            (if yy > now.y % 100 + 5 then [1900 + yy] else []) ++ [2000 + yy]
          else [yy]))))
  have hp := h1.and h2
  refine List.Pairwise.imp_of_mem ?_ hp
  intro a b ha hb hab
  have hva := hvalid a ha
  have hvb := hvalid b hb
  rcases Nat.lt_or_ge a.toOrdinal b.toOrdinal with h | h
  · exact h
  · have heq : a.toOrdinal = b.toOrdinal := Nat.le_antisymm hab.1 h
    exact absurd (toOrdinal_inj hva hvb heq) hab.2

/-- C10: for `yy ≤ 99` every date returned by `parse_date_variants` has
year exactly `2000 + yy` inside `[2015, current_year + 1]` (the 1900s
candidate never survives the window), the list holds at most three dates —
one per field-order reading of the single surviving year — in strictly
ascending order, and the two files' resolvers agree. -/
theorem parse_date_variants_spec :
    ∀ (now : Date) (p1 p2 yy : Nat), yy ≤ 99 →
      (∀ d ∈ BCR.parse_date_variants now p1 p2 yy,
          d.valid = true ∧ d.y = 2000 + yy
            ∧ 2015 ≤ 2000 + yy ∧ 2000 + yy ≤ now.y + 1)
        ∧ (BCR.parse_date_variants now p1 p2 yy).length ≤ 3
        ∧ (BCR.parse_date_variants now p1 p2 yy).Pairwise
            (fun a b => a.toOrdinal < b.toOrdinal)
        ∧ AF.parse_date_variants now p1 p2 yy = BCR.parse_date_variants now p1 p2 yy := by
  intro now p1 p2 yy h99
  refine ⟨?_, parse_length_le now p1 p2 yy,
    parse_pairwise_lt now p1 p2 yy (fun d hd => (mem_parse_date_variants hd).1),
    parse_date_variants_agree now p1 p2 yy⟩
  intro d hd
  have h := mem_parse_date_variants hd
  have hy := h.2.2.2.2 h99
  have hl := h.2.2.1
  have hr := h.2.2.2.1
  exact ⟨h.1, hy, by omega, by omega⟩

theorem parse_date_variants_spec_witness :
    25 ≤ 99
      ∧ ((∀ d ∈ BCR.parse_date_variants ⟨2026, 10, 12⟩ 5 9 25,
            d.valid = true ∧ d.y = 2000 + 25
              ∧ 2015 ≤ 2000 + 25 ∧ 2000 + 25 ≤ (Date.mk 2026 10 12).y + 1)
          ∧ (BCR.parse_date_variants ⟨2026, 10, 12⟩ 5 9 25).length ≤ 3
          ∧ (BCR.parse_date_variants ⟨2026, 10, 12⟩ 5 9 25).Pairwise
              (fun a b => a.toOrdinal < b.toOrdinal)
          ∧ AF.parse_date_variants ⟨2026, 10, 12⟩ 5 9 25
              = BCR.parse_date_variants ⟨2026, 10, 12⟩ 5 9 25) :=
  ⟨by decide, parse_date_variants_spec ⟨2026, 10, 12⟩ 5 9 25 (by decide)⟩

/-! ### Normalization facts -/

theorem filter_map_dropWhile (p : Char → Bool) (f : Char → Char) (q : Char → Bool)
    (hpq : ∀ c, q c = true → p (f c) = false) (l : List Char) :
    List.filter p (List.map f (List.dropWhile q l)) = List.filter p (List.map f l) := by
  induction l with
  | nil => rfl
  | cons a as ih =>
    cases hqa : q a
    · simp [List.dropWhile_cons, hqa]
    · rw [List.dropWhile_cons_of_pos hqa, ih]
      simp [List.filter_cons, hpq a hqa]

theorem filter_map_pyStrip (p : Char → Bool) (f : Char → Char)
    (hpq : ∀ c, pySpace c = true → p (f c) = false) (l : List Char) :
    List.filter p (List.map f (pyStrip l)) = List.filter p (List.map f l) := by
  unfold pyStrip
  rw [List.map_reverse, List.filter_reverse,
    filter_map_dropWhile p f pySpace hpq ((l.dropWhile pySpace).reverse),
    List.map_reverse, List.filter_reverse, List.reverse_reverse,
    filter_map_dropWhile p f pySpace hpq l]

theorem filter_map_filterOut (p : Char → Bool) (f : Char → Char) (q : Char → Bool)
    (hpq : ∀ c, q c = true → p (f c) = false) (l : List Char) :
    List.filter p (List.map f (List.filter (fun c => ! q c) l))
      = List.filter p (List.map f l) := by
  induction l with
  | nil => rfl
  | cons a as ih =>
    cases hqa : q a
    · simp [List.filter_cons, hqa, ih]
    · simp [List.filter_cons, hqa, ih, hpq a hqa]

theorem space_not_sep_upper :
    ∀ c, pySpace c = true → (! BCR.isSeparator (upperChar c)) = false := by
  intro c hc
  simp only [pySpace, Bool.or_eq_true, decide_eq_true_eq] at hc
  rcases hc with ((((rfl | rfl) | rfl) | rfl) | rfl) | rfl <;> decide

/-- `batch_code_reader.py`'s normalization is insensitive to whitespace
anywhere in the input. -/
theorem cleaned_code_space_invariant (code : List Char) :
    BCR.cleaned_code (List.filter (fun c => ! pySpace c) code)
      = BCR.cleaned_code code := by
  unfold BCR.cleaned_code
  rw [filter_map_pyStrip _ _ space_not_sep_upper, filter_map_pyStrip _ _ space_not_sep_upper,
    filter_map_filterOut _ _ pySpace space_not_sep_upper]

theorem analyze_space_invariant (now : Date) (code : List Char) :
    BCR.analyze_batch_code now (List.filter (fun c => ! pySpace c) code)
      = BCR.analyze_batch_code now code := by
  have h := cleaned_code_space_invariant code
  simp only [BCR.analyze_batch_code, h]

/-- C5: `batch_code_reader.py` conforms to the normalization description —
whitespace is removed with the other separators, so any input is analyzed
identically to the same input with whitespace deleted — but in
`app_fixed.py` the separator class of `re.sub(r'[-_./\\s]', ...)` contains
a literal `s` instead of the whitespace class, so an interior space
survives normalization and changes the result of the analysis. -/
theorem separator_stripping :
    (∀ (now : Date) (code : List Char),
        BCR.analyze_batch_code now (List.filter (fun c => ! pySpace c) code)
          = BCR.analyze_batch_code now code)
      ∧ AF.cleaned_code ['5', '0', ' ', '0', '9', '0', '3']
          = ['5', '0', ' ', '0', '9', '0', '3']
      ∧ (AF.analyze_batch_code ⟨2026, 10, 12⟩ ['5', '0', ' ', '0', '9', '0', '3']).1 = false
      ∧ (AF.analyze_batch_code ⟨2026, 10, 12⟩
            (List.filter (fun c => ! pySpace c)
              ['5', '0', ' ', '0', '9', '0', '3'])).1 = true :=
  ⟨analyze_space_invariant, by decide, by decide, by decide⟩

/-- In `batch_code_reader.py` the originally-empty and the
emptied-by-cleaning inputs produce the same failure message, so that copy
does not draw the claimed distinction. -/
theorem empty_message_counterexample :
    (BCR.analyze_batch_code ⟨2026, 10, 12⟩ ['-', '.', '_']).1 = false
      ∧ pyStrip ['-', '.', '_'] ≠ []
      ∧ (BCR.analyze_batch_code ⟨2026, 10, 12⟩ []).1 = false
      ∧ (BCR.analyze_batch_code ⟨2026, 10, 12⟩ ['-', '.', '_']).2.1
          = (BCR.analyze_batch_code ⟨2026, 10, 12⟩ []).2.1 := by
  refine ⟨by decide, by decide, by decide, by decide⟩

/-- C6 (amended): on an input that normalizes to the empty string both
copies fail with no interpretations; `app_fixed.py` distinguishes an
originally empty input from one emptied by separator stripping, while
`batch_code_reader.py` reports the same "Empty code" message in both
cases. -/
theorem empty_message_distinction :
    ∀ (now : Date) (code : List Char),
      (AF.cleaned_code code = [] →
        (AF.analyze_batch_code now code).1 = false
          ∧ (AF.analyze_batch_code now code).2.2 = []
          ∧ (AF.analyze_batch_code now code).2.1
              = if pyStrip code ≠ [] then "Code empty after cleaning" else "Empty code")
      ∧ (BCR.cleaned_code code = [] →
        (BCR.analyze_batch_code now code).1 = false
          ∧ (BCR.analyze_batch_code now code).2.2 = []
          ∧ (BCR.analyze_batch_code now code).2.1 = "Empty code") := by
  intro now code
  constructor
  · intro h
    simp only [AF.analyze_batch_code]
    rw [if_pos h]
    exact ⟨rfl, rfl, rfl⟩
  · intro h
    simp only [BCR.analyze_batch_code]
    rw [if_pos h]
    exact ⟨rfl, rfl, rfl⟩

theorem empty_message_distinction_witness :
    AF.cleaned_code ['-', '.', '_'] = []
      ∧ BCR.cleaned_code ['-', '.', '_'] = []
      ∧ ((AF.analyze_batch_code ⟨2026, 10, 12⟩ ['-', '.', '_']).1 = false
          ∧ (AF.analyze_batch_code ⟨2026, 10, 12⟩ ['-', '.', '_']).2.2 = []
          ∧ (AF.analyze_batch_code ⟨2026, 10, 12⟩ ['-', '.', '_']).2.1
              = if pyStrip ['-', '.', '_'] ≠ [] then "Code empty after cleaning"
                else "Empty code")
      ∧ ((BCR.analyze_batch_code ⟨2026, 10, 12⟩ ['-', '.', '_']).1 = false
          ∧ (BCR.analyze_batch_code ⟨2026, 10, 12⟩ ['-', '.', '_']).2.2 = []
          ∧ (BCR.analyze_batch_code ⟨2026, 10, 12⟩ ['-', '.', '_']).2.1 = "Empty code") :=
  ⟨by decide, by decide,
   (empty_message_distinction ⟨2026, 10, 12⟩ ['-', '.', '_']).1 (by decide),
   (empty_message_distinction ⟨2026, 10, 12⟩ ['-', '.', '_']).2 (by decide)⟩

/-! ### Special-prefix decoder facts -/

theorem mem_dedupByAux_key (k : α → β) [DecidableEq β] (l : List α) :
    ∀ (seen : List β) (a : α), a ∈ l → k a ∉ seen →
      ∃ b ∈ dedupByAux k seen l, k b = k a := by
  induction l with
  | nil =>
    intro seen a ha
    cases ha
  | cons x xs ih =>
    intro seen a ha hns
    simp only [dedupByAux]
    rcases List.mem_cons.mp ha with rfl | hxs
    · rw [if_neg hns]
      exact ⟨a, List.mem_cons_self _ _, rfl⟩
    · by_cases hx : k x ∈ seen
      · rw [if_pos hx]
        exact ih seen a hxs hns
      · rw [if_neg hx]
        by_cases hax : k a = k x
        · exact ⟨x, List.mem_cons_self _ _, hax.symm⟩
        · obtain ⟨b, hb, hkb⟩ := ih (k x :: seen) a hxs (by
            intro hcon
            rcases List.mem_cons.mp hcon with h1 | h1
            · exact hax h1
            · exact hns h1)
          exact ⟨b, List.mem_cons_of_mem _ hb, hkb⟩

theorem mem_dedupBy_key (k : α → β) [DecidableEq β] {l : List α} {a : α} (ha : a ∈ l) :
    ∃ b ∈ dedupBy k l, k b = k a :=
  mem_dedupByAux_key k l [] a ha (by simp)

/-- The sort-union-deduplicate tail shared by the special-prefix decoders:
anything in the unioned input survives into the output by key. -/
theorem dedup_union_mem (kp : Interp → Date) (kord : Interp → Nat) (F R : List Interp)
    (msg : String) (f1 f2 : Bool × String × List Interp) (dv : Date)
    (j : Interp) (hj : j ∈ R) (hjd : kp j = dv) :
    ∃ b ∈ (if F ++ R ≠ [] then
        (if dedupBy kp (sortAsc kord (F ++ R)) ≠ []
         then (true, msg, dedupBy kp (sortAsc kord (F ++ R))) else f1) else f2).2.2,
      kp b = dv := by
  have hmem : j ∈ F ++ R := List.mem_append_right F hj
  have hne : F ++ R ≠ [] := by
    intro hcon
    rw [hcon] at hmem
    cases hmem
  obtain ⟨b, hb, hkb⟩ := mem_dedupBy_key kp (mem_sortAsc.mpr hmem)
  have hUne : dedupBy kp (sortAsc kord (F ++ R)) ≠ [] := by
    intro hcon
    rw [hcon] at hb
    cases hb
  rw [if_pos hne, if_pos hUne]
  exact ⟨b, hb, hkb.trans hjd⟩

theorem dedup_union_sound (kp : Interp → Date) (kord : Interp → Nat) (F R : List Interp)
    (msg : String) (f1 f2 : Bool × String × List Interp)
    (hf1 : f1.2.2 = []) (hf2 : f2.2.2 = []) (i : Interp)
    (hi : i ∈ (if F ++ R ≠ [] then
        (if dedupBy kp (sortAsc kord (F ++ R)) ≠ []
         then (true, msg, dedupBy kp (sortAsc kord (F ++ R))) else f1) else f2).2.2) :
    i ∈ F ∨ i ∈ R := by
  split at hi
  · split at hi
    · have h1 := (dedupBy_sublist _ _).subset hi
      exact List.mem_append.mp (mem_sortAsc.mp h1)
    · rw [hf1] at hi
      cases hi
  · rw [hf2] at hi
    cases hi

theorem dedup_union_pairwise (kp : Interp → Date) (kord : Interp → Nat) (F R : List Interp)
    (msg : String) (f1 f2 : Bool × String × List Interp)
    (hf1 : f1.2.2 = []) (hf2 : f2.2.2 = []) :
    ((if F ++ R ≠ [] then
        (if dedupBy kp (sortAsc kord (F ++ R)) ≠ []
         then (true, msg, dedupBy kp (sortAsc kord (F ++ R))) else f1) else f2).2.2).Pairwise
      (fun a b => kp a ≠ kp b) := by
  split
  · split
    · exact pairwise_dedupBy kp _
    · rw [hf1]
      exact List.Pairwise.nil
  · rw [hf2]
    exact List.Pairwise.nil

/-- `batch_code_reader.py`'s special-prefix decoder omits the claimed
resolver delegation: on "A0625B" (a 4-digit run) the resolver candidate
2025-06-25 passes the expiry policy, yet the decoder's (nonempty) output
carries no interpretation with that production date. -/
theorem special_prefix_counterexample :
    matchSpecialPfx ['A', '0', '6', '2', '5', 'B']
        = some ('A', ['0', '6', '2', '5'], ['B'])
      ∧ (Date.mk 2025 6 25) ∈ BCR.parse_date_variants ⟨2025, 12, 1⟩ 6 25 25
      ∧ add_years ⟨2025, 6, 25⟩ 3 = .ok ⟨2028, 6, 25⟩
      ∧ is_valid_expiry ⟨2025, 12, 1⟩ ⟨2028, 6, 25⟩ = true
      ∧ (BCR.validate_special_pfx ⟨2025, 12, 1⟩ ['A', '0', '6', '2', '5', 'B']).2.2 ≠ []
      ∧ ∀ i ∈ (BCR.validate_special_pfx ⟨2025, 12, 1⟩ ['A', '0', '6', '2', '5', 'B']).2.2,
          i.production_date ≠ ⟨2025, 6, 25⟩ :=
  ⟨by decide, by decide, rfl, by decide, by decide, by decide⟩

/-- C3 (amended, for `app_fixed.py` whose decoder alone delegates): for a
code matching the special-prefix grammar with a 4-digit run, every resolver
candidate accepted by the expiry policy reaches the output (by production
date), every output production date is a resolver candidate or the
MM/YY-as-month-end reading, and the output is deduplicated by production
date. -/
theorem special_prefix_union :
    ∀ (now : Date) (code : List Char) (pc : Char) (ds suf : List Char)
      (ymm : Nat) (processed : List Interp),
      matchSpecialPfx code = some (pc, ds, suf) →
      ds.length = 4 →
      resolve_two_digit_year now (natOfDigits (List.drop 2 ds)) = .ok ymm →
      process_parsed_dates now "" 70 ""
          (AF.parse_date_variants now (natOfDigits (List.take 2 ds))
            (natOfDigits (List.drop 2 ds)) (natOfDigits (List.drop 2 ds)))
        = .ok processed →
      (∀ d ∈ AF.parse_date_variants now (natOfDigits (List.take 2 ds))
            (natOfDigits (List.drop 2 ds)) (natOfDigits (List.drop 2 ds)),
          ∀ e : Date, add_years d 3 = .ok e → is_valid_expiry now e = true →
            ∃ i ∈ (AF.validate_special_pfx now code).2.2, i.production_date = d)
        ∧ (∀ i ∈ (AF.validate_special_pfx now code).2.2,
            i.production_date ∈ AF.parse_date_variants now (natOfDigits (List.take 2 ds))
                (natOfDigits (List.drop 2 ds)) (natOfDigits (List.drop 2 ds))
              ∨ mkDatetime ymm (natOfDigits (List.take 2 ds))
                  (daysInMonth ymm (natOfDigits (List.take 2 ds))) = some i.production_date)
        ∧ ((AF.validate_special_pfx now code).2.2).Pairwise
            (fun a b => a.production_date ≠ b.production_date) := by
  intro now code pc ds suf ymm processed hm hlen hres hproc
  unfold AF.validate_special_pfx
  split
  · rename_i heq
    rw [hm] at heq
    cases heq
  · rename_i pc' ds' suf' heq
    rw [hm] at heq
    simp only [Option.some.injEq, Prod.mk.injEq] at heq
    obtain ⟨rfl, rfl, rfl⟩ := heq
    rw [if_pos hlen]
    dsimp only
    split
    · rename_i e heq2
      rw [hres] at heq2
      cases heq2
    · rename_i ymm' heq2
      rw [hres] at heq2
      rw [Except.ok.injEq] at heq2
      subst heq2
      split
      · rename_i e heq3
        rw [hproc] at heq3
        cases heq3
      · rename_i processed' heq3
        rw [hproc] at heq3
        rw [Except.ok.injEq] at heq3
        subst heq3
        refine ⟨?_, ?_, ?_⟩
        · intro d hd e hadd hval
          obtain ⟨j, hj, hjd⟩ := process_complete hproc hd hadd hval
          refine dedup_union_mem _ _ _ _ _ _ _ _ _
            (List.mem_map_of_mem _ hj) ?_
          exact hjd
        · intro i hi
          rcases dedup_union_sound _ _ _ _ _ _ _ rfl rfl i hi with hF | hR
          · right
            split at hF
            · split at hF
              · cases hF
              · rename_i prod_dt heq4
                split at hF
                · split at hF
                  · cases hF
                  · split at hF
                    · simp only [List.mem_singleton] at hF
                      subst hF
                      exact heq4
                    · cases hF
                · cases hF
            · cases hF
          · left
            obtain ⟨j, hj, hji⟩ := List.mem_map.mp hR
            subst hji
            exact (process_good hproc j hj).1
        · exact dedup_union_pairwise _ _ _ _ _ _ _ rfl rfl

theorem special_prefix_union_witness :
    matchSpecialPfx ['A', '0', '6', '2', '5', 'B'] = some ('A', ['0', '6', '2', '5'], ['B'])
      ∧ (['0', '6', '2', '5'] : List Char).length = 4
      ∧ resolve_two_digit_year ⟨2025, 12, 1⟩
          (natOfDigits (List.drop 2 ['0', '6', '2', '5'])) = .ok 2025
      ∧ process_parsed_dates ⟨2025, 12, 1⟩ "" 70 ""
          (AF.parse_date_variants ⟨2025, 12, 1⟩
            (natOfDigits (List.take 2 ['0', '6', '2', '5']))
            (natOfDigits (List.drop 2 ['0', '6', '2', '5']))
            (natOfDigits (List.drop 2 ['0', '6', '2', '5'])))
          = .ok [⟨⟨2025, 6, 25⟩, ⟨2028, 6, 25⟩, 70, "Parsed Date",
                  none, none, none, none, none, none, none⟩,
                 ⟨⟨2025, 6, 30⟩, ⟨2028, 6, 30⟩, 70, "Parsed Date",
                  none, none, none, none, none, none, none⟩]
      ∧ ((∀ d ∈ AF.parse_date_variants ⟨2025, 12, 1⟩
              (natOfDigits (List.take 2 ['0', '6', '2', '5']))
              (natOfDigits (List.drop 2 ['0', '6', '2', '5']))
              (natOfDigits (List.drop 2 ['0', '6', '2', '5'])),
            ∀ e : Date, add_years d 3 = .ok e → is_valid_expiry ⟨2025, 12, 1⟩ e = true →
              ∃ i ∈ (AF.validate_special_pfx ⟨2025, 12, 1⟩
                  ['A', '0', '6', '2', '5', 'B']).2.2, i.production_date = d)
          ∧ (∀ i ∈ (AF.validate_special_pfx ⟨2025, 12, 1⟩
                ['A', '0', '6', '2', '5', 'B']).2.2,
              i.production_date ∈ AF.parse_date_variants ⟨2025, 12, 1⟩
                  (natOfDigits (List.take 2 ['0', '6', '2', '5']))
                  (natOfDigits (List.drop 2 ['0', '6', '2', '5']))
                  (natOfDigits (List.drop 2 ['0', '6', '2', '5']))
                ∨ mkDatetime 2025 (natOfDigits (List.take 2 ['0', '6', '2', '5']))
                    (daysInMonth 2025 (natOfDigits (List.take 2 ['0', '6', '2', '5'])))
                  = some i.production_date)
          ∧ ((AF.validate_special_pfx ⟨2025, 12, 1⟩
              ['A', '0', '6', '2', '5', 'B']).2.2).Pairwise
                (fun a b => a.production_date ≠ b.production_date)) :=
  ⟨by decide, by decide, rfl, rfl,
   special_prefix_union ⟨2025, 12, 1⟩ ['A', '0', '6', '2', '5', 'B'] 'A'
     ['0', '6', '2', '5'] ['B'] 2025
     [⟨⟨2025, 6, 25⟩, ⟨2028, 6, 25⟩, 70, "Parsed Date",
       none, none, none, none, none, none, none⟩,
      ⟨⟨2025, 6, 30⟩, ⟨2028, 6, 30⟩, 70, "Parsed Date",
       none, none, none, none, none, none, none⟩]
     (by decide) (by decide) rfl rfl⟩

/-! ### The "500903" end-to-end resolution -/

theorem dateReadingsStep_id (m p1 p2 : Nat) (cands : List Date) (y : Nat) (h : 31 < p1) :
    dateReadingsStep m p1 p2 cands y = cands := by
  have h1 : ¬(1 ≤ p1 ∧ p1 ≤ 31 ∧ 1 ≤ p2 ∧ p2 ≤ 12) := by omega
  have h2 : ¬(1 ≤ p1 ∧ p1 ≤ 12 ∧ 1 ≤ p2 ∧ p2 ≤ 31) := by omega
  have h3 : ¬(1 ≤ p1 ∧ p1 ≤ 12) := by omega
  simp only [dateReadingsStep, dateReadingsStep12]
  rw [if_neg h2, if_neg h1, if_neg h3]

theorem parse_nil_of_p1_large (now : Date) (p1 p2 yy : Nat) (h : 31 < p1) :
    BCR.parse_date_variants now p1 p2 yy = [] := by
  rw [parse_date_variants_eq]
  have hfold : ∀ ys : List Nat,
      List.foldl (dateReadingsStep (now.toOrdinal + 90) p1 p2) [] ys = [] := by
    intro ys
    induction ys with
    | nil => rfl
    | cons a as ih =>
      rw [List.foldl_cons, dateReadingsStep_id _ _ _ _ _ h]
      exact ih
  rw [hfold]
  rfl

theorem tagged_nil {n : String} {r : Bool × String × List Interp} (h : r.2.2 = []) :
    tagged n r = [] := by
  unfold tagged
  rw [if_neg]
  intro hcon
  exact hcon.2 h

theorem dateOfYearDay_nine (y : Nat) : dateOfYearDay y 9 = ⟨y, 1, 9⟩ := by
  unfold dateOfYearDay monthOfYearDay
  cases isLeap y <;> rfl

theorem collision_neg_of_format (i : Interp) (h : i.format_type = "YDDD BB") :
    ¬(([i].any (fun a => a.format_type == "YDDD BB")) = true
      ∧ ([i].any (fun a => a.format_type == "Julian DDDYY + Suffix"
          || a.format_type == "Julian DDDYY + Alpha Suffix"
          || a.format_type == "Legacy DDDYYBB (Julian)")) = true) := by
  intro hcon
  have h2 := hcon.2
  rw [List.any_cons, List.any_nil, Bool.or_false, h] at h2
  exact absurd h2 (by decide)

theorem sortDesc_single (i : Interp) :
    sortDesc (fun a => a.confidence) [i] = [i] := rfl

theorem dedup_sortDesc_single (i : Interp) :
    dedupBy dedupKey (sortDesc (fun a => a.confidence) [i]) = [i] := rfl

/-- The orchestrator tail on a single collected `YDDD BB` interpretation. -/
theorem analyze_tail_computation (now : Date) (code : List Char) (R : Interp)
    (hcode : ¬(code = [])) (hcc : BCR.cleaned_code code = code)
    (hcol : BCR.collectInterps now code = [R])
    (hfmt : R.format_type = "YDDD BB") :
    BCR.analyze_batch_code now code = (true, "Found 1 valid interpretation", [R]) := by
  simp only [BCR.analyze_batch_code]
  rw [hcc, hcol, if_neg hcode, if_pos (List.cons_ne_nil _ _),
    if_neg (collision_neg_of_format R hfmt),
    dedup_sortDesc_single, if_neg (List.cons_ne_nil _ _), sortDesc_single]
  have hs : "Found " ++ toString ([R].length) ++ " valid interpretation"
      ++ (if [R].length > 1 then "s" else "") = "Found 1 valid interpretation" := by
    rw [show [R].length = 1 from rfl]
    decide
  rw [hs]

theorem p1_500903_nil (now : Date) :
    (BCR.validate_historical_pattern_1 now ['5', '0', '0', '9', '0', '3']).2.2 = [] := by
  unfold BCR.validate_historical_pattern_1
  split
  · rfl
  · rename_i ds ms ys ss hm
    rw [show matchDdmmyyyy ['5', '0', '0', '9', '0', '3']
        = some (['5', '0'], ['0'], ['9', '0'], ['3']) from rfl] at hm
    simp only [Option.some.injEq, Prod.mk.injEq] at hm
    obtain ⟨rfl, rfl, rfl, rfl⟩ := hm
    dsimp only
    rw [show natOfDigits ['5', '0'] = 50 from rfl,
      show natOfDigits ['0'] = 0 from rfl,
      show natOfDigits ['9', '0'] = 90 from rfl,
      parse_nil_of_p1_large now 50 0 90 (by omega)]
    split
    · rfl
    · rename_i res heq
      rw [show process_parsed_dates now (String.mk ['3']) 90 "DD/MM/YY or MM/DD/YY" []
          = (.ok [] : Except DateErr (List Interp)) from rfl] at heq
      rw [Except.ok.injEq] at heq
      subst heq
      rw [if_neg (not_not_intro rfl)]

theorem p2_500903_nil (now : Date) :
    (BCR.validate_historical_pattern_2 now ['5', '0', '0', '9', '0', '3']).2.2 = [] := by
  unfold BCR.validate_historical_pattern_2
  split
  · rfl
  · rename_i ps qs ys hm
    rw [show matchDdmmyy ['5', '0', '0', '9', '0', '3']
        = some (['5', '0'], ['0', '9'], ['0', '3']) from rfl] at hm
    simp only [Option.some.injEq, Prod.mk.injEq] at hm
    obtain ⟨rfl, rfl, rfl⟩ := hm
    dsimp only
    rw [show natOfDigits ['5', '0'] = 50 from rfl,
      show natOfDigits ['0', '9'] = 9 from rfl,
      show natOfDigits ['0', '3'] = 3 from rfl,
      parse_nil_of_p1_large now 50 9 3 (by omega)]
    split
    · rfl
    · rename_i res heq
      rw [show process_parsed_dates now "" 85 "DD/MM/YY or MM/DD/YY" []
          = (.ok [] : Except DateErr (List Interp)) from rfl] at heq
      rw [Except.ok.injEq] at heq
      subst heq
      rw [if_neg (not_not_intro rfl)]

theorem p3_500903_nil (now : Date) (h1 : 2015 ≤ now.y) (h2 : now.y ≤ 2099) :
    (BCR.validate_historical_pattern_3 now ['5', '0', '0', '9', '0', '3']).2.2 = [] := by
  unfold BCR.validate_historical_pattern_3
  split
  · rfl
  · rename_i ds ys ss hm
    rw [show matchJulianSuffix ['5', '0', '0', '9', '0', '3']
        = some (['5', '0', '0'], ['9', '0'], ['3']) from rfl] at hm
    simp only [Option.some.injEq, Prod.mk.injEq] at hm
    obtain ⟨rfl, rfl, rfl⟩ := hm
    dsimp only
    split
    · rfl
    · rename_i year hyr
      rw [show natOfDigits ['9', '0'] = 90 from rfl] at hyr
      simp only [resolve_two_digit_year] at hyr
      rw [if_pos (show (90 : Nat) ≤ 99 by omega),
        if_neg (show ¬(90 < 50) by omega)] at hyr
      rw [Except.ok.injEq] at hyr
      have hy90 : year = 1990 := by omega
      subst hy90
      rw [if_pos (by omega)]

theorem legacy_500903_nil (now : Date) (h1 : 2015 ≤ now.y) (h2 : now.y ≤ 2099) :
    (BCR.validate_legacy_formats now ['5', '0', '0', '9', '0', '3']).2.2 = [] := by
  have h0 : BCR.legacy_dddyybb now ['5', '0', '0', '9', '0', '3'] = [] := rfl
  have h1' : BCR.legacy_yyddd now ['5', '0', '0', '9', '0', '3'] [] = [] := by
    simp only [BCR.legacy_yyddd]
    rw [if_pos ⟨by decide, by decide⟩]
    split
    · rfl
    · rename_i year hyr
      rw [show natOfDigits (List.take 2 ['5', '0', '0', '9', '0', '3']) = 50 from rfl] at hyr
      simp only [resolve_two_digit_year] at hyr
      rw [if_pos (show (50 : Nat) ≤ 99 by omega),
        if_neg (show ¬(50 < 50) by omega)] at hyr
      rw [Except.ok.injEq] at hyr
      have hy50 : year = 1950 := by omega
      subst hy50
      rw [if_neg (by omega)]
  unfold BCR.validate_legacy_formats
  rw [h0, h1', if_neg (not_not_intro rfl)]

theorem yddd_500903 (now : Date) (h1 : 2015 ≤ now.y) (h2 : now.y ≤ 2099)
    (hexp : is_valid_expiry now ⟨decade_heuristic_year now.y 5 + 3, 1, 9⟩ = true) :
    BCR.validate_yddd_bb now ['5', '0', '0', '9', '0', '3']
      = (true,
         "YDDD BB (Year: " ++ toString (decade_heuristic_year now.y 5) ++ ", Julian: "
           ++ toString (9 : Nat) ++ ", Batch: " ++ String.mk ['0', '3'] ++ ")",
         [{ production_date := ⟨decade_heuristic_year now.y 5, 1, 9⟩,
            expiry_date := ⟨decade_heuristic_year now.y 5 + 3, 1, 9⟩,
            confidence := 98, format_type := "YDDD BB",
            batch := some (String.mk ['0', '3']), julian_day := some (9 : Nat) }]) := by
  have hYlo : 2015 ≤ decade_heuristic_year now.y 5 := by
    unfold decade_heuristic_year
    dsimp only
    split <;> omega
  have hYhi : decade_heuristic_year now.y 5 ≤ now.y := by
    unfold decade_heuristic_year
    dsimp only
    split <;> omega
  have hjul : julian_to_date (decade_heuristic_year now.y 5) 9
      = .ok ⟨decade_heuristic_year now.y 5, 1, 9⟩ := by
    have hc1 : ¬¬(1 ≤ 9 ∧ 9 ≤ daysInYear (decade_heuristic_year now.y 5)) := by
      rw [not_not]
      refine ⟨by omega, ?_⟩
      unfold daysInYear
      split <;> omega
    have hc2 : ¬¬(1 ≤ decade_heuristic_year now.y 5
        ∧ decade_heuristic_year now.y 5 ≤ 9999) := by
      rw [not_not]
      exact ⟨by omega, by omega⟩
    unfold julian_to_date
    rw [if_neg hc1, if_neg hc2, dateOfYearDay_nine]
  have htn : ((decade_heuristic_year now.y 5 : Int) + 3).toNat
      = decade_heuristic_year now.y 5 + 3 := by omega
  have hadd : add_years ⟨decade_heuristic_year now.y 5, 1, 9⟩ 3
      = .ok ⟨decade_heuristic_year now.y 5 + 3, 1, 9⟩ := by
    simp only [add_years]
    rw [htn]
    have hok : 0 ≤ (decade_heuristic_year now.y 5 : Int) + 3
        ∧ (Date.mk (decade_heuristic_year now.y 5 + 3) 1 9).valid = true := by
      refine ⟨by omega, ?_⟩
      rw [valid_iff]
      dsimp only
      refine ⟨by omega, by omega, by omega, by omega, by omega, ?_⟩
      unfold daysInMonth
      rcases Bool.eq_false_or_eq_true (isLeap (decade_heuristic_year now.y 5 + 3))
        with hL | hL <;> rw [hL] <;> decide
    rw [if_pos hok]
  unfold BCR.validate_yddd_bb
  split
  · rename_i hm
    rw [show matchYdddBb ['5', '0', '0', '9', '0', '3']
        = some (['5'], ['0', '0', '9'], ['0', '3']) from rfl] at hm
    cases hm
  · rename_i ys ds bs hm
    rw [show matchYdddBb ['5', '0', '0', '9', '0', '3']
        = some (['5'], ['0', '0', '9'], ['0', '3']) from rfl] at hm
    simp only [Option.some.injEq, Prod.mk.injEq] at hm
    obtain ⟨rfl, rfl, rfl⟩ := hm
    dsimp only
    rw [show natOfDigits ['5'] = 5 from rfl, show natOfDigits ['0', '0', '9'] = 9 from rfl]
    rw [if_neg (not_not_intro ⟨hYlo, by omega⟩)]
    split
    · rename_i e hje
      rw [hjul] at hje
      cases hje
    · rename_i pd hje
      rw [hjul, Except.ok.injEq] at hje
      subst hje
      split
      · rename_i e hae
        rw [hadd] at hae
        cases hae
      · rename_i ed hae
        rw [hadd, Except.ok.injEq] at hae
        subst hae
        rw [if_pos hexp]

theorem collect_500903 (now : Date) (h1 : 2015 ≤ now.y) (h2 : now.y ≤ 2099)
    (hexp : is_valid_expiry now ⟨decade_heuristic_year now.y 5 + 3, 1, 9⟩ = true) :
    BCR.collectInterps now ['5', '0', '0', '9', '0', '3']
      = [{ production_date := ⟨decade_heuristic_year now.y 5, 1, 9⟩,
           expiry_date := ⟨decade_heuristic_year now.y 5 + 3, 1, 9⟩,
           confidence := 98, format_type := "YDDD BB",
           batch := some (String.mk ['0', '3']), julian_day := some (9 : Nat),
           format_name_source := some "YDDD-BB",
           parsing_message := some ("YDDD BB (Year: "
             ++ toString (decade_heuristic_year now.y 5) ++ ", Julian: "
             ++ toString (9 : Nat) ++ ", Batch: " ++ String.mk ['0', '3'] ++ ")") }] := by
  unfold BCR.collectInterps
  rw [yddd_500903 now h1 h2 hexp,
    tagged_nil (p3_500903_nil now h1 h2),
    tagged_nil (p1_500903_nil now),
    tagged_nil (p2_500903_nil now),
    tagged_nil (legacy_500903_nil now h1 h2),
    tagged_nil (show (BCR.validate_prefix_yymm_suffix now
      ['5', '0', '0', '9', '0', '3']).2.2 = [] from rfl),
    tagged_nil (show (BCR.validate_historical_pattern_4 now
      ['5', '0', '0', '9', '0', '3']).2.2 = [] from rfl),
    tagged_nil (show (BCR.validate_special_pfx now
      ['5', '0', '0', '9', '0', '3']).2.2 = [] from rfl)]
  rfl

/-- C4 (amended): on "500903" the analysis succeeds with a single `YDDD BB`
interpretation, batch "03" and year from the decade heuristic, but the
Julian day field is `int("009") = 9`, not 90 as the spec example claims;
the production date is day 9 of the resolved year. -/
theorem code_500903_resolution :
    ∀ now : Date, 2015 ≤ now.y → now.y ≤ 2099 →
      is_valid_expiry now ⟨decade_heuristic_year now.y 5 + 3, 1, 9⟩ = true →
      BCR.analyze_batch_code now ['5', '0', '0', '9', '0', '3']
        = (true, "Found 1 valid interpretation",
           [{ production_date := ⟨decade_heuristic_year now.y 5, 1, 9⟩,
              expiry_date := ⟨decade_heuristic_year now.y 5 + 3, 1, 9⟩,
              confidence := 98, format_type := "YDDD BB",
              batch := some (String.mk ['0', '3']), julian_day := some (9 : Nat),
              format_name_source := some "YDDD-BB",
              parsing_message := some ("YDDD BB (Year: "
                ++ toString (decade_heuristic_year now.y 5) ++ ", Julian: "
                ++ toString (9 : Nat) ++ ", Batch: " ++ String.mk ['0', '3'] ++ ")") }]) := by
  intro now h1 h2 hexp
  exact analyze_tail_computation now ['5', '0', '0', '9', '0', '3'] _ (by decide) rfl
    (collect_500903 now h1 h2 hexp) rfl

/-- The spec example's Julian-day value is wrong: the interpretation's
`julian_day` is 9 (from `int("009")`), never 90. -/
theorem code_500903_counterexample :
    (BCR.analyze_batch_code ⟨2026, 10, 12⟩ ['5', '0', '0', '9', '0', '3']).1 = true
      ∧ (BCR.analyze_batch_code ⟨2026, 10, 12⟩ ['5', '0', '0', '9', '0', '3']).2.2 ≠ []
      ∧ ∀ i ∈ (BCR.analyze_batch_code ⟨2026, 10, 12⟩ ['5', '0', '0', '9', '0', '3']).2.2,
          i.format_type = "YDDD BB" ∧ i.batch = some "03"
            ∧ i.julian_day = some 9 ∧ i.julian_day ≠ some 90 :=
  ⟨by decide, by decide, by decide⟩

theorem code_500903_resolution_witness :
    2015 ≤ (Date.mk 2026 10 12).y ∧ (Date.mk 2026 10 12).y ≤ 2099
      ∧ is_valid_expiry ⟨2026, 10, 12⟩
          ⟨decade_heuristic_year (Date.mk 2026 10 12).y 5 + 3, 1, 9⟩ = true
      ∧ BCR.analyze_batch_code ⟨2026, 10, 12⟩ ['5', '0', '0', '9', '0', '3']
          = (true, "Found 1 valid interpretation",
             [{ production_date := ⟨decade_heuristic_year (Date.mk 2026 10 12).y 5, 1, 9⟩,
                expiry_date := ⟨decade_heuristic_year (Date.mk 2026 10 12).y 5 + 3, 1, 9⟩,
                confidence := 98, format_type := "YDDD BB",
                batch := some (String.mk ['0', '3']), julian_day := some (9 : Nat),
                format_name_source := some "YDDD-BB",
                parsing_message := some ("YDDD BB (Year: "
                  ++ toString (decade_heuristic_year (Date.mk 2026 10 12).y 5) ++ ", Julian: "
                  ++ toString (9 : Nat) ++ ", Batch: " ++ String.mk ['0', '3'] ++ ")") }]) :=
  ⟨by decide, by decide, by decide,
   code_500903_resolution ⟨2026, 10, 12⟩ (by decide) (by decide) (by decide)⟩

end BatchCode